import Mathlib

set_option linter.unusedVariables false

/-!
Shallow embedding of the user-settings migration engine
(`src/stores/runtime/global-shortcuts.ts`, second document: the
user-settings schema migration) and of the home-banner media catalog
(`src/modules/home/composables/use-home-banner-media.ts`, plus the
infusion background resolver).

Persisted values are modelled by a JSON-like inductive `JVal`; the
storage adapter is modelled by the fixed finite set of keys the
migration steps touch, collected into the structure `Store`.
JavaScript numbers are modelled as integers (the code only does
integer index arithmetic on them).
-/

/-- JSON-like runtime value, the payloads a `StorageAdapter` can hold. -/
inductive JVal where
  | jnull
  | jbool (b : Bool)
  | jnum (n : Int)
  | jstr (s : String)
  | jarr (xs : List JVal)
  | jobj (fields : List (String × JVal))
deriving Repr, Inhabited

mutual

/-- Structural equality test on `JVal` (decidable equality is derived
from it below; the automatic derive handler cannot treat the nested
occurrence of `List`). -/
def JVal.beq : JVal → JVal → Bool
  | .jnull, .jnull => true
  | .jbool a, .jbool b => a == b
  | .jnum a, .jnum b => a == b
  | .jstr a, .jstr b => a == b
  | .jarr a, .jarr b => JVal.beqList a b
  | .jobj a, .jobj b => JVal.beqFields a b
  | _, _ => false

def JVal.beqList : List JVal → List JVal → Bool
  | [], [] => true
  | a :: as, b :: bs => JVal.beq a b && JVal.beqList as bs
  | _, _ => false

def JVal.beqFields : List (String × JVal) → List (String × JVal) → Bool
  | [], [] => true
  | (k1, v1) :: as, (k2, v2) :: bs =>
    k1 == k2 && JVal.beq v1 v2 && JVal.beqFields as bs
  | _, _ => false

end

mutual

theorem JVal.beq_iff : ∀ (a b : JVal), (JVal.beq a b = true) ↔ a = b
  | .jnull, b => by cases b <;> simp [JVal.beq]
  | .jbool x, b => by cases b <;> simp [JVal.beq]
  | .jnum x, b => by cases b <;> simp [JVal.beq]
  | .jstr x, b => by cases b <;> simp [JVal.beq]
  | .jarr xs, b => by
    cases b <;> simp [JVal.beq]
    exact JVal.beqList_iff xs _
  | .jobj fs, b => by
    cases b <;> simp [JVal.beq]
    exact JVal.beqFields_iff fs _

theorem JVal.beqList_iff : ∀ (a b : List JVal),
    (JVal.beqList a b = true) ↔ a = b
  | [], [] => by simp [JVal.beqList]
  | [], _ :: _ => by simp [JVal.beqList]
  | _ :: _, [] => by simp [JVal.beqList]
  | x :: xs, y :: ys => by
    simp [JVal.beqList, JVal.beq_iff x y, JVal.beqList_iff xs ys]

theorem JVal.beqFields_iff : ∀ (a b : List (String × JVal)),
    (JVal.beqFields a b = true) ↔ a = b
  | [], [] => by simp [JVal.beqFields]
  | [], _ :: _ => by simp [JVal.beqFields]
  | _ :: _, [] => by simp [JVal.beqFields]
  | (k1, v1) :: xs, (k2, v2) :: ys => by
    simp [JVal.beqFields, JVal.beq_iff v1 v2, JVal.beqFields_iff xs ys,
      Prod.ext_iff, and_assoc]

end

instance : DecidableEq JVal := fun a b =>
  decidable_of_iff (JVal.beq a b = true) (JVal.beq_iff a b)

/-- JavaScript truthiness of a value. -/
def JVal.truthy : JVal → Bool
  | .jnull => false
  | .jbool b => b
  | .jnum n => n != 0
  | .jstr s => s != ""
  | .jarr _ => true
  | .jobj _ => true

/-- `typeof v === 'object'` (true for null, arrays and plain objects). -/
def JVal.isObjectType : JVal → Bool
  | .jnull => true
  | .jarr _ => true
  | .jobj _ => true
  | _ => false

/-- Property read `v.k` on a plain object; `none` models `undefined`. -/
def JVal.getField : JVal → String → Option JVal
  | .jobj fields, k => (fields.find? (fun kv => kv.1 == k)).map (·.2)
  | _, _ => none

/-- Property assignment `o[k] = v` on an object's field list: updates the
field in place when the key is present, appends it otherwise. -/
def objSet (fields : List (String × JVal)) (k : String) (v : JVal) :
    List (String × JVal) :=
  if fields.any (fun kv => kv.1 == k) then
    fields.map (fun kv => if kv.1 == k then (k, v) else kv)
  else
    fields ++ [(k, v)]

/-- Lookup in an object's field list (first matching key). -/
def objLookup (fields : List (String × JVal)) (k : String) : Option JVal :=
  (fields.find? (fun kv => kv.1 == k)).map (·.2)

/-- `Object.entries(v)` for values whose `typeof` is `'object'` and which
are truthy: field list of an object, indexed elements of an array. -/
def entriesOf : JVal → Option (List (String × JVal))
  | .jobj fields => some fields
  | .jarr xs => some ((xs.enum).map (fun p => (toString p.1, p.2)))
  | _ => none

mutual

/-- JavaScript `String(v)` coercion (used when a value is used as a
property key): arrays join their elements with `,` (null elements
become empty), objects stringify to `[object Object]`. -/
def jsToStr : JVal → String
  | .jnull => "null"
  | .jbool b => cond b "true" "false"
  | .jnum n => toString n
  | .jstr s => s
  | .jarr xs => String.intercalate "," (jsToStrArr xs)
  | .jobj _ => "[object Object]"

def jsToStrArr : List JVal → List String
  | [] => []
  | v :: rest =>
    (match v with
      | .jnull => ""
      | w => jsToStr w) :: jsToStrArr rest

end

/-- Coercion of a possibly-`undefined` value to a property key
(`o[x] = v` stringifies `x`; `undefined` becomes the key "undefined"). -/
def jsPropKey : Option JVal → String
  | none => "undefined"
  | some v => jsToStr v

/-- JavaScript array indexing `xs[i]` with a (possibly negative)
integer index; `none` models `undefined`. -/
def jsGet (xs : List JVal) (i : Int) : Option JVal :=
  if i < 0 then none else xs.get? i.toNat

/-- The test `/^\d+$/.test(k)`: non-empty and all ASCII digits. -/
def numericKeyTest (k : String) : Bool :=
  k.length > 0 && k.toList.all Char.isDigit

/-- Leading decimal digits of a character list, as a number. -/
def parseDigits (cs : List Char) : Option Nat :=
  let ds := cs.takeWhile Char.isDigit
  if ds.isEmpty then none
  else some (ds.foldl (fun a c => a * 10 + (c.toNat - 48)) 0)

/-- `parseInt(s, 10)`: skip leading whitespace, optional sign, then the
leading run of decimal digits; `none` models `NaN`. -/
def parseInt10 (s : String) : Option Int :=
  match s.toList.dropWhile Char.isWhitespace with
  | [] => none
  | c :: rest =>
    if c = '-' then (parseDigits rest).map (fun n => -(n : Int))
    else if c = '+' then (parseDigits rest).map (fun n => (n : Int))
    else (parseDigits (c :: rest)).map (fun n => (n : Int))

/-- JavaScript `String.prototype.trim()` (whitespace stripped from
both ends), implemented on the character list so that it evaluates
inside the kernel. -/
def jsTrim (s : String) : String :=
  String.mk
    (((s.toList.dropWhile Char.isWhitespace).reverse.dropWhile
      Char.isWhitespace).reverse)

/-- Split a character list at every separator character (JavaScript
`String.prototype.split` semantics: `n` separators yield `n + 1`
groups, empty groups included). -/
def splitOnPred (p : Char → Bool) (cs : List Char) : List (List Char) :=
  cs.foldr
    (fun c acc =>
      if p c then [] :: acc
      else
        match acc with
        | g :: rest => (c :: g) :: rest
        | [] => [[c]])
    [[]]

/-- `.replace(/\/g, '/')`. -/
def backslashesToSlashes (s : String) : String :=
  String.mk (s.toList.map (fun c => if c = '\\' then '/' else c))

/-- Media kind of a catalog entry (`'image' | 'video'`). -/
inductive MediaType where
  | image
  | video
deriving Repr, DecidableEq

/-- One entry of the builtin home-banner manifest.
Modelled from the spec: the manifest itself
(`src/data/home-banner-media.ts`) is consumed as external read-only
data — "an ordered list of `{fileName, displayName, mediaType}` fixed
at build time" — so the functions below take it as a parameter
`homeBannerMedia : List BannerMedia`; likewise the fixed constant
`DEFAULT_HOME_BANNER_FILE_NAME` is passed as a string parameter. -/
structure BannerMedia where
  fileName : String
  name : String
  type : MediaType
deriving Repr, DecidableEq

/-- The fixed finite set of storage keys the user-settings migration
steps read or write, as a record: field `f` models
`storage.get('f')`/`storage.set('f', ·)`, with `none` for an absent
key.  The six `infusionPages*Background` fields model the enumerated
keys `infusion.pages.<page>.background` of the 4→5 step. -/
structure Store where
  navigatorUseSystemIcons : Option JVal := none
  navigatorUseSystemIconsForDirectories : Option JVal := none
  navigatorUseSystemIconsForFiles : Option JVal := none
  homeBannerCustomMedia : Option JVal := none
  homeBannerPositions : Option JVal := none
  homeBannerMediaId : Option JVal := none
  homeBannerIndex : Option JVal := none
  infusionPagesGlobalBackground : Option JVal := none
  infusionPagesHomeBackground : Option JVal := none
  infusionPagesNavigatorBackground : Option JVal := none
  infusionPagesDashboardBackground : Option JVal := none
  infusionPagesSettingsBackground : Option JVal := none
  infusionPagesExtensionsBackground : Option JVal := none
deriving Repr, DecidableEq

/-- `typeof v === 'boolean'` on a possibly-absent stored value. -/
def isBoolVal : Option JVal → Bool
  | some (.jbool _) => true
  | _ => false

/-- The stored boolean, when the value is one
(`typeof v === 'boolean' ? v : undefined`). -/
def asBoolVal : Option JVal → Option Bool
  | some (.jbool b) => some b
  | _ => none

/-- Migration step 1→2 (`migrateUserSettingsStep`, `fromVersion === 1`):
split `navigator.useSystemIcons` into the two per-kind keys, each
written only when not already holding a boolean. -/
def migrateStep1to2 (st : Store) : Store :=
  match asBoolVal st.navigatorUseSystemIcons with
  | none => st
  | some b =>
    let directoriesAlreadySet : Bool :=
      isBoolVal st.navigatorUseSystemIconsForDirectories
    let filesAlreadySet : Bool :=
      isBoolVal st.navigatorUseSystemIconsForFiles
    let st1 :=
      if !directoriesAlreadySet then
        { st with navigatorUseSystemIconsForDirectories := some (.jbool b) }
      else st
    if !filesAlreadySet then
      { st1 with navigatorUseSystemIconsForFiles := some (.jbool b) }
    else st1

/-- Legacy-format conversion inside step 2→3: an array whose first
element is a string is mapped entry-wise to `{path, id}` objects with
freshly generated ids (`generateShortId` is modelled by the id supply
`genId`). -/
def convertLegacyCustomMedia (genId : Nat → String) (xs : List JVal) :
    List JVal :=
  (xs.enum).map (fun p =>
    JVal.jobj [("path", p.2), ("id", .jstr (genId p.1))])

/-- The `migratedCustom` list of step 2→3 together with the flag
telling whether the converted list was written back
(`isLegacyFormat`). -/
def computeMigratedCustom (genId : Nat → String)
    (customMediaValue : Option JVal) : List JVal × Bool :=
  match customMediaValue with
  | some (.jarr xs) =>
    match xs with
    | (.jstr _) :: _ => (convertLegacyCustomMedia genId xs, true)
    | _ => (xs, false)
  | _ => ([], false)

/-- `typeof v === 'number' ? v : d` on a possibly-absent field value. -/
def numOrDefault (o : Option JVal) (d : Int) : Int :=
  match o with
  | some (.jnum n) => n
  | _ => d

/-- The `validPosition` normalization of step 2→3: coordinates default
to 50 and zoom to 100 when the stored field is not a number. -/
def validPositionOf (position : JVal) : JVal :=
  .jobj
    [ ("positionX", .jnum (numOrDefault (position.getField "positionX") 50)),
      ("positionY", .jnum (numOrDefault (position.getField "positionY") 50)),
      ("zoom", .jnum (numOrDefault (position.getField "zoom") 100)) ]

/-- The position-map rewriting loop of step 2→3.  `none` models the
`TypeError` raised by `migratedCustom[index].id` when the indexed
element is `undefined` (negative index) or `null`.  Keys whose
`parseInt` is `NaN` are merged back verbatim; in-range indices are
relocated to the custom entry's id (below the custom count) or the
builtin file name (by offset); other indices are dropped. -/
def migratePositionsLoop (homeBannerMedia : List BannerMedia)
    (migratedCustom : List JVal) :
    List (String × JVal) → List (String × JVal) →
    Option (List (String × JVal))
  | acc, [] => some acc
  | acc, (key, position) :: rest =>
    if !(position.truthy && position.isObjectType) then
      migratePositionsLoop homeBannerMedia migratedCustom acc rest
    else
      match parseInt10 key with
      | none =>
        migratePositionsLoop homeBannerMedia migratedCustom
          (objSet acc key position) rest
      | some index =>
        let validPosition := validPositionOf position
        if index < (migratedCustom.length : Int) then
          match jsGet migratedCustom index with
          | none => none
          | some .jnull => none
          | some entry =>
            migratePositionsLoop homeBannerMedia migratedCustom
              (objSet acc (jsPropKey (entry.getField "id")) validPosition)
              rest
        else
          let builtinIndex := index - (migratedCustom.length : Int)
          if 0 ≤ builtinIndex ∧
              builtinIndex < (homeBannerMedia.length : Int) then
            match homeBannerMedia.get? builtinIndex.toNat with
            | some media =>
              migratePositionsLoop homeBannerMedia migratedCustom
                (objSet acc media.fileName validPosition) rest
            | none =>
              migratePositionsLoop homeBannerMedia migratedCustom acc rest
          else
            migratePositionsLoop homeBannerMedia migratedCustom acc rest

/-- The custom-media value after the 2→3 conversion: the converted
array when the stored one was in legacy string format, the stored
value unchanged otherwise. -/
def customAfter (genId : Nat → String) (cm : Option JVal) : Option JVal :=
  let mc := computeMigratedCustom genId cm
  if mc.2 then some (.jarr mc.1) else cm

/-- Migration step 2→3 (`fromVersion === 2`): legacy custom-media
conversion followed by the position-map rewrite when some key matches
`/^\d+$/`.  The boolean result is `true` when the step raised
(`TypeError` inside the loop); the store then reflects only the
writes made before the raise. -/
def migrateStep2to3 (homeBannerMedia : List BannerMedia)
    (genId : Nat → String) (st : Store) : Bool × Store :=
  let migratedCustom := (computeMigratedCustom genId
    st.homeBannerCustomMedia).1
  let st1 := { st with
    homeBannerCustomMedia := customAfter genId st.homeBannerCustomMedia }
  match st1.homeBannerPositions with
  | none => (false, st1)
  | some positionsValue =>
    if !positionsValue.truthy then (false, st1)
    else
      match entriesOf positionsValue with
      | none => (false, st1)
      | some fields =>
        let hasNumericKeys := fields.any (fun kv => numericKeyTest kv.1)
        if hasNumericKeys then
          match migratePositionsLoop homeBannerMedia migratedCustom [] fields with
          | some migratedPositions =>
            (false, { st1 with homeBannerPositions := some (.jobj migratedPositions) })
          | none => (true, st1)
        else (false, st1)

/-- The guard of the 3→4 step
(`!mediaIdValue || typeof mediaIdValue !== 'string' ||
mediaIdValue.trim() === ''`): absent, not a string, or blank after
trimming (a falsy string is blank). -/
def mediaIdNeedsDerivation : Option JVal → Bool
  | none => true
  | some (.jstr s) => jsTrim s == ""
  | some _ => true

/-- The stored custom-media array's elements (`[]` when the stored
value is not an array). -/
def storedCustomElems : Option JVal → List JVal
  | some (.jarr xs) => xs
  | _ => []

/-- The stored legacy index (`typeof v === 'number' ? v : 0`). -/
def storedIndex : Option JVal → Int
  | some (.jnum n) => n
  | _ => 0

/-- The value the 3→4 step derives for `homeBannerMediaId` from the
stored custom list and legacy index. -/
def derivedMediaId (homeBannerMedia : List BannerMedia)
    (DEFAULT_HOME_BANNER_FILE_NAME : String)
    (customMediaValue indexValue : Option JVal) : JVal :=
  let customElems : List JVal := storedCustomElems customMediaValue
  let customCount : Nat := customElems.length
  let rawIndex : Int := storedIndex indexValue
  let totalCount : Nat := customCount + homeBannerMedia.length
  if totalCount > 0 ∧ 0 ≤ rawIndex ∧ rawIndex < (totalCount : Int) then
    if rawIndex < (customCount : Int) then
      match jsGet customElems rawIndex with
      | some entry =>
        if entry.truthy && entry.isObjectType &&
            (match entry.getField "id" with
              | some v => v.truthy
              | none => false) then
          match entry.getField "id" with
          | some v => v
          | none => .jstr DEFAULT_HOME_BANNER_FILE_NAME
        else .jstr DEFAULT_HOME_BANNER_FILE_NAME
      | none => .jstr DEFAULT_HOME_BANNER_FILE_NAME
    else
      let builtinIndex := rawIndex - (customCount : Int)
      match homeBannerMedia.get? builtinIndex.toNat with
      | some media => .jstr media.fileName
      | none => .jstr DEFAULT_HOME_BANNER_FILE_NAME
  else .jstr DEFAULT_HOME_BANNER_FILE_NAME

/-- Migration step 3→4 (`fromVersion === 3`): when `homeBannerMediaId`
is absent, falsy, not a string or blank, derive it from the legacy
`homeBannerIndex` using the custom-range-then-builtin-range rule with
`DEFAULT_HOME_BANNER_FILE_NAME` as fallback. -/
def migrateStep3to4 (homeBannerMedia : List BannerMedia)
    (DEFAULT_HOME_BANNER_FILE_NAME : String) (st : Store) : Store :=
  if mediaIdNeedsDerivation st.homeBannerMediaId then
    { st with
      homeBannerMediaId := some (derivedMediaId homeBannerMedia
        DEFAULT_HOME_BANNER_FILE_NAME st.homeBannerCustomMedia
        st.homeBannerIndex) }
  else st

/-- Truthiness of a background descriptor's `mediaId` field
(`background.mediaId` as a condition). -/
def bgTruthyMediaId (v : JVal) : Bool :=
  match v.getField "mediaId" with
  | some m => m.truthy
  | none => false

/-- The descriptor's legacy index when it is a number
(`typeof background.index === 'number'`). -/
def bgNumericIndex (v : JVal) : Option Int :=
  match v.getField "index" with
  | some (.jnum n) => some n
  | _ => none

/-- The per-descriptor rewrite of step 4→5: a background descriptor
lacking a truthy `mediaId` but holding a numeric `index` that lands in
the builtin manifest gets `mediaId` attached (spread `{...background,
mediaId}`); anything else is untouched. -/
def migrateBackground (homeBannerMedia : List BannerMedia)
    (background : Option JVal) : Option JVal :=
  match background with
  | none => none
  | some v =>
    if v.truthy && v.isObjectType && !bgTruthyMediaId v &&
        (bgNumericIndex v).isSome then
      let builtinIndex : Int := (bgNumericIndex v).getD 0
      match (if builtinIndex < 0 then none
             else homeBannerMedia.get? builtinIndex.toNat) with
      | some media =>
        match v with
        | .jobj fields =>
          some (.jobj (objSet fields "mediaId" (.jstr media.fileName)))
        | _ => some v
      | none => some v
    else some v

/-- Migration step 4→5 (`fromVersion === 4`): apply the background
rewrite to each of the six enumerated `infusion.pages.*.background`
keys. -/
def migrateStep4to5 (homeBannerMedia : List BannerMedia) (st : Store) :
    Store :=
  { st with
    infusionPagesGlobalBackground :=
      migrateBackground homeBannerMedia st.infusionPagesGlobalBackground
    infusionPagesHomeBackground :=
      migrateBackground homeBannerMedia st.infusionPagesHomeBackground
    infusionPagesNavigatorBackground :=
      migrateBackground homeBannerMedia st.infusionPagesNavigatorBackground
    infusionPagesDashboardBackground :=
      migrateBackground homeBannerMedia st.infusionPagesDashboardBackground
    infusionPagesSettingsBackground :=
      migrateBackground homeBannerMedia st.infusionPagesSettingsBackground
    infusionPagesExtensionsBackground :=
      migrateBackground homeBannerMedia st.infusionPagesExtensionsBackground }

/-- `migrateUserSettingsStep(storage, fromVersion, toVersion)`.  The
boolean component records whether the call raised (only the 2→3 block
can); a raise aborts the remaining blocks, leaving the writes already
made. -/
def migrateUserSettingsStep (homeBannerMedia : List BannerMedia)
    (DEFAULT_HOME_BANNER_FILE_NAME : String) (genId : Nat → String)
    (fromVersion toVersion : Nat) (st : Store) : Bool × Store :=
  if fromVersion = 0 ∧ toVersion = 1 then (false, st)
  else if fromVersion = 1 ∧ toVersion = 2 then (false, migrateStep1to2 st)
  else
    let r23 :=
      if fromVersion = 2 ∧ toVersion = 3 then
        migrateStep2to3 homeBannerMedia genId st
      else (false, st)
    if r23.1 then r23
    else
      let st3 := r23.2
      let st4 :=
        if fromVersion = 3 ∧ toVersion = 4 then
          migrateStep3to4 homeBannerMedia DEFAULT_HOME_BANNER_FILE_NAME st3
        else st3
      let st5 :=
        if fromVersion = 4 ∧ toVersion = 5 then
          migrateStep4to5 homeBannerMedia st4
        else st4
      (false, st5)

/-!
Catalog layer: `src/modules/home/composables/use-home-banner-media.ts`.
Here the settings are already typed (the composable reads the typed
`userSettings` object), so custom entries and positions carry their
TypeScript shapes.  `userSettingsStore.set(key, value)` updates the
reactive settings state before persisting (the store's setter pattern
assigns the state and then writes storage, cf. the `userGlobalShortcuts`
setter in `global-shortcuts.ts`), so every `computed` read after an
awaited `set` sees the updated state; the embedding therefore threads a
`UserSettings` value through each function, updating it at each `set`.
-/

/-- A custom home-banner entry `{path, id}`. -/
structure HomeBannerCustomMediaItem where
  path : String
  id : String
deriving Repr, DecidableEq

/-- A saved banner position record. -/
structure HomeBannerPosition where
  positionX : Int
  positionY : Int
  zoom : Int
deriving Repr, DecidableEq

/-- The slice of the typed user settings the catalog layer touches. -/
structure UserSettings where
  homeBannerCustomMedia : Option (List HomeBannerCustomMediaItem) := none
  homeBannerMediaId : Option String := none
  homeBannerIndex : Int := 0
  homeBannerPositions : Option (List (String × HomeBannerPosition)) := none
deriving Repr, DecidableEq

/-- A catalog item (`MediaItem`): builtin manifest entry or custom
entry enriched with derived file name and media type. -/
inductive MediaItem where
  | builtin (index : Nat) (data : BannerMedia)
  | custom (index : Nat) (path : String) (id : String) (fileName : String)
      (type : MediaType)
deriving Repr, DecidableEq

/-- `isUrl`. -/
def isUrl (value : String) : Bool :=
  List.isPrefixOf "http://".toList value.toList ||
  List.isPrefixOf "https://".toList value.toList

/-- Pathname of an http(s) URL (`new URL(u).pathname`): the text from
the first slash after the scheme-and-host part, query and fragment
stripped; `/` when the authority has no path. -/
def urlPathname (u : String) : String :=
  let afterScheme :=
    if List.isPrefixOf "http://".toList u.toList then (u.toList).drop 7
    else if List.isPrefixOf "https://".toList u.toList then (u.toList).drop 8
    else u.toList
  let fromSlash := afterScheme.dropWhile (fun c => c ≠ '/')
  let p := if fromSlash.isEmpty then ['/'] else fromSlash
  String.mk (p.takeWhile (fun c => c ≠ '?' ∧ c ≠ '#'))

/-- `getExtension`: text after the last dot, lowercased; empty when
there is no dot.  For URLs the extension is taken from the pathname. -/
def getExtension (pathOrUrl : String) : String :=
  let cleanPath := if isUrl pathOrUrl then urlPathname pathOrUrl else pathOrUrl
  if cleanPath.toList.contains '.' then
    String.mk
      (((cleanPath.toList.reverse.takeWhile (fun c => c ≠ '.')).reverse).map
        Char.toLower)
  else ""

/-- `isVideoExtension`. -/
def isVideoExtension (ext : String) : Bool :=
  ["mp4", "webm", "ogg", "mov", "avi", "mkv"].contains ext

/-- `path.split(/[/\\]/)`: split on forward and back slashes. -/
def splitPathSeps (path : String) : List String :=
  (splitOnPred (fun c => c = '/' || c = '\\') path.toList).map String.mk

/-- Derived file name of a custom entry's path: last path component
(`.split(/[/\\]/).pop() ?? path`). -/
def customFileName (path : String) : String :=
  ((splitPathSeps path).getLast?).getD path

/-- `customItems`: the stored custom list, defaulting to empty. -/
def customItems (s : UserSettings) : List HomeBannerCustomMediaItem :=
  s.homeBannerCustomMedia.getD []

/-- `allMediaItems`: all custom entries (insertion order) followed by
all builtin manifest entries (manifest order). -/
def allMediaItems (homeBannerMedia : List BannerMedia) (s : UserSettings) :
    List MediaItem :=
  ((customItems s).enum).map (fun p =>
    let fileName := customFileName p.2.path
    let ext := getExtension fileName
    let type := if isVideoExtension ext then MediaType.video else .image
    MediaItem.custom p.1 p.2.path p.2.id fileName type)
  ++ (homeBannerMedia.enum).map (fun p => MediaItem.builtin p.1 p.2)

/-- `totalCount`. -/
def totalCount (homeBannerMedia : List BannerMedia) (s : UserSettings) :
    Nat :=
  (customItems s).length + homeBannerMedia.length

/-- `mediaId`: the stored id when it is a non-blank string, else the
default builtin file name. -/
def mediaIdOf (DEFAULT_HOME_BANNER_FILE_NAME : String) (s : UserSettings) :
    String :=
  match s.homeBannerMediaId with
  | some id => if jsTrim id ≠ "" then id else DEFAULT_HOME_BANNER_FILE_NAME
  | none => DEFAULT_HOME_BANNER_FILE_NAME

/-- `getPositionKey`: stable position key of an item (builtin file name
or custom id). -/
def getPositionKey : MediaItem → String
  | .builtin _ data => data.fileName
  | .custom _ _ id _ _ => id

/-- `normalizedIndex`: index of the first item whose position key is
the selected media id, else of the default builtin, else 0. -/
def normalizedIndex (homeBannerMedia : List BannerMedia)
    (DEFAULT_HOME_BANNER_FILE_NAME : String) (s : UserSettings) : Nat :=
  let items := allMediaItems homeBannerMedia s
  let targetId := mediaIdOf DEFAULT_HOME_BANNER_FILE_NAME s
  if items.isEmpty then 0
  else
    match items.findIdx? (fun item => getPositionKey item = targetId) with
    | some foundIndex => foundIndex
    | none =>
      match items.findIdx? (fun item =>
          match item with
          | .builtin _ data => data.fileName = DEFAULT_HOME_BANNER_FILE_NAME
          | _ => false) with
      | some defaultIndex => defaultIndex
      | none => 0

/-- `currentItem`: the item at the normalized index (`null` when the
catalog is empty). -/
def currentItem (homeBannerMedia : List BannerMedia)
    (DEFAULT_HOME_BANNER_FILE_NAME : String) (s : UserSettings) :
    Option MediaItem :=
  (allMediaItems homeBannerMedia s).get?
    (normalizedIndex homeBannerMedia DEFAULT_HOME_BANNER_FILE_NAME s)

/-- `haystack.includes(needle)` on strings (contiguous substring
test). -/
def includesAux (needle : List Char) : List Char → Bool
  | [] => needle.isEmpty
  | c :: rest => List.isPrefixOf needle (c :: rest) || includesAux needle rest

/-- JavaScript `String.prototype.includes`. -/
def strIncludes (hay needle : String) : Bool :=
  includesAux needle.toList hay.toList

/-- `getBuiltinMediaUrl`: look the file name up in the bundled asset
maps (passed as parameters, they are build-time globs). -/
def getBuiltinMediaUrl (builtinBannerImages builtinBannerVideos :
    List (String × String)) (item : BannerMedia) : String :=
  let mediaMap :=
    if item.type = MediaType.video then builtinBannerVideos
    else builtinBannerImages
  match mediaMap.find? (fun kv =>
      strIncludes kv.1 item.fileName) with
  | some kv => kv.2
  | none => ""

/-- `getMediaUrl` (`convertFileSrc` is the external Tauri asset-URL
conversion, passed as a parameter). -/
def getMediaUrl (builtinBannerImages builtinBannerVideos :
    List (String × String)) (convertFileSrc : String → String) :
    MediaItem → String
  | .builtin _ data =>
    getBuiltinMediaUrl builtinBannerImages builtinBannerVideos data
  | .custom _ path _ _ _ =>
    if isUrl path then path else convertFileSrc path

/-- Media type of a catalog item (`item.kind === 'builtin' ?
item.data.type : item.type`). -/
def mediaTypeOf : MediaItem → MediaType
  | .builtin _ data => data.type
  | .custom _ _ _ _ type => type

/-- A page background descriptor as the infusion resolver sees it
(`{ index?: number; mediaId?: string }`). -/
structure InfusionBackground where
  index : Option Int := none
  mediaId : Option String := none
deriving Repr, DecidableEq

/-- Result of the infusion background resolution. -/
structure InfusionMedia where
  url : String
  type : MediaType
deriving Repr, DecidableEq

/-- `getInfusionMediaFromBackground` (infusion overlay component):
resolve the descriptor's media id against the catalog, falling back to
the default infusion builtin, then to the first item, then to the
empty sentinel `{url: '', type: 'image'}`. -/
def getInfusionMediaFromBackground (homeBannerMedia : List BannerMedia)
    (DEFAULT_INFUSION_BACKGROUND_FILE_NAME : String)
    (builtinBannerImages builtinBannerVideos : List (String × String))
    (convertFileSrc : String → String) (s : UserSettings)
    (background : InfusionBackground) : InfusionMedia :=
  let mediaId :=
    match background.mediaId with
    | some m => if jsTrim m ≠ "" then m
        else DEFAULT_INFUSION_BACKGROUND_FILE_NAME
    | none => DEFAULT_INFUSION_BACKGROUND_FILE_NAME
  let items := allMediaItems homeBannerMedia s
  match items.find? (fun i => getPositionKey i = mediaId) with
  | some item =>
    { url := getMediaUrl builtinBannerImages builtinBannerVideos
        convertFileSrc item,
      type := mediaTypeOf item }
  | none =>
    let fallback :=
      match items.find? (fun i =>
          match i with
          | .builtin _ data =>
            data.fileName = DEFAULT_INFUSION_BACKGROUND_FILE_NAME
          | _ => false) with
      | some f => some f
      | none => items.head?
    match fallback with
    | some f =>
      { url := getMediaUrl builtinBannerImages builtinBannerVideos
          convertFileSrc f,
        type := mediaTypeOf f }
    | none => { url := "", type := MediaType.image }

/-- `collapseSlashes`: `.replace(/\/+/g, '/')`. -/
def collapseSlashes (s : String) : String :=
  String.mk (s.toList.foldr
    (fun c acc => if c = '/' ∧ acc.head? = some '/' then acc else c :: acc)
    [])

/-- `addFilesFromPaths(sourcePaths)`: copy the files into the app
storage directory (external `copy_items` call, its success passed as
`copyOk`; a failure throws, modelled by `none`), then append one
`{path, id}` entry per source path and select the first new entry. -/
def addFilesFromPaths (DEFAULT_HOME_BANNER_FILE_NAME : String)
    (genId : Nat → String) (destDir : String) (copyOk : Bool)
    (s : UserSettings) (sourcePaths : List String) :
    Option UserSettings :=
  if sourcePaths.length = 0 then some s
  else if destDir = "" then some s
  else if !copyOk then none
  else
    let newEntries : List HomeBannerCustomMediaItem :=
      (sourcePaths.enum).map (fun p =>
        let fileName := ((splitPathSeps p.2).getLast?).getD p.2
        let path := collapseSlashes ((backslashesToSlashes destDir) ++ "/" ++ fileName)
        { path := path, id := genId p.1 })
    let currentCustom := s.homeBannerCustomMedia.getD []
    let updated := currentCustom ++ newEntries
    let s1 := { s with homeBannerCustomMedia := some updated }
    let firstNewIndex := currentCustom.length
    let newItemId : Option String := (updated.get? firstNewIndex).map (·.id)
    let s2 := { s1 with
      homeBannerMediaId := some (newItemId.getD DEFAULT_HOME_BANNER_FILE_NAME) }
    some { s2 with homeBannerIndex := (firstNewIndex : Int) }

/-- `addMediaUrl(url)`: append one custom entry for a trimmed http(s)
URL not already present (no-op otherwise) and select it. -/
def addMediaUrl (DEFAULT_HOME_BANNER_FILE_NAME : String)
    (genId : Nat → String) (s : UserSettings) (url : String) :
    UserSettings :=
  let trimmedUrl := jsTrim url
  if trimmedUrl = "" ∨ !isUrl trimmedUrl then s
  else
    let currentCustom := s.homeBannerCustomMedia.getD []
    if currentCustom.any (fun entry => entry.path = trimmedUrl) then s
    else
      let newEntry : HomeBannerCustomMediaItem :=
        { path := trimmedUrl, id := genId 0 }
      let updated := currentCustom ++ [newEntry]
      let s1 := { s with homeBannerCustomMedia := some updated }
      let newIndex := currentCustom.length
      let newItemId : Option String := (updated.get? newIndex).map (·.id)
      let s2 := { s1 with
        homeBannerMediaId := some (newItemId.getD DEFAULT_HOME_BANNER_FILE_NAME) }
      { s2 with homeBannerIndex := (newIndex : Int) }

/-- The removal predicate of `removeCustomMedia`
(`item.kind === 'custom' && item.path === path`). -/
def isCustomWithPath (path : String) : MediaItem → Bool
  | .custom _ p _ _ _ => p = path
  | _ => false

/-- `removeCustomMedia(path)`: drop every custom entry with the given
path and its saved position record, then re-resolve the selection.
The selection snapshot (`normalizedIndex.value`, `allMediaItems.value`)
is taken after the filtered list has been written, so it already
reflects the post-removal catalog. -/
def removeCustomMedia (homeBannerMedia : List BannerMedia)
    (DEFAULT_HOME_BANNER_FILE_NAME : String) (s : UserSettings)
    (path : String) : UserSettings :=
  let currentCustom := s.homeBannerCustomMedia.getD []
  let removedEntry := currentCustom.find? (fun entry => entry.path = path)
  let filtered := currentCustom.filter (fun entry => entry.path ≠ path)
  let s1 := { s with homeBannerCustomMedia := some filtered }
  let s2 :=
    match removedEntry with
    | some entry =>
      match s1.homeBannerPositions with
      | some positions =>
        if positions.any (fun kv => kv.1 = entry.id) then
          { s1 with
            homeBannerPositions := some (positions.filter (fun kv => kv.1 ≠ entry.id)) }
        else s1
      | none => s1
    | none => s1
  let itemsAfter : Int := (filtered.length : Int) + homeBannerMedia.length
  let currentIdx : Int :=
    (normalizedIndex homeBannerMedia DEFAULT_HOME_BANNER_FILE_NAME s2 : Int)
  let itemsBefore := allMediaItems homeBannerMedia s2
  let removeIdx : Int :=
    match itemsBefore.findIdx? (isCustomWithPath path) with
    | some i => (i : Int)
    | none => -1
  let newIndex0 : Int :=
    if removeIdx ≥ 0 ∧ currentIdx ≥ removeIdx ∧ currentIdx > 0 then
      max 0 (currentIdx - 1)
    else currentIdx
  let newIndex : Int := min (max 0 newIndex0) (itemsAfter - 1)
  let resolvedMediaId : String :=
    if itemsAfter > 0 then
      if newIndex < (filtered.length : Int) then
        match (if newIndex < 0 then none else filtered.get? newIndex.toNat) with
        | some entry => entry.id
        | none => DEFAULT_HOME_BANNER_FILE_NAME
      else
        match homeBannerMedia.get? (newIndex - (filtered.length : Int)).toNat with
        | some media => media.fileName
        | none => DEFAULT_HOME_BANNER_FILE_NAME
    else DEFAULT_HOME_BANNER_FILE_NAME
  let s3 := { s2 with homeBannerMediaId := some resolvedMediaId }
  { s3 with homeBannerIndex := newIndex }

/-! Helper lemmas about `List.findIdx?` and `List.find?`. -/

theorem findIdx?_some_get (p : α → Bool) :
    ∀ (l : List α) (n j : Nat), l.findIdx? p n = some j →
      n ≤ j ∧ l[j - n]? = l.find? p ∧ ∃ a, l.find? p = some a := by
  intro l
  induction l with
  | nil => intro n j h; simp [List.findIdx?] at h
  | cons x xs ih =>
    intro n j h
    rw [List.findIdx?_cons] at h
    by_cases hp : p x = true
    · rw [if_pos hp] at h
      injection h with h
      subst h
      refine ⟨le_refl _, ?_, ?_⟩
      · simp [List.find?_cons, hp]
      · exact ⟨x, by simp [List.find?_cons, hp]⟩
    · rw [if_neg hp] at h
      obtain ⟨h1, h2, h3⟩ := ih (n + 1) j h
      refine ⟨by omega, ?_, ?_⟩
      · have : j - n = (j - (n + 1)) + 1 := by omega
        rw [this]
        simpa [List.find?_cons, hp] using h2
      · simpa [List.find?_cons, hp] using h3

theorem findIdx?_none_find? (p : α → Bool) :
    ∀ (l : List α) (n : Nat), l.findIdx? p n = none → l.find? p = none := by
  intro l
  induction l with
  | nil => intro n _; simp
  | cons x xs ih =>
    intro n h
    rw [List.findIdx?_cons] at h
    by_cases hp : p x = true
    · rw [if_pos hp] at h
      exact absurd h (by simp)
    · rw [if_neg hp] at h
      simpa [List.find?_cons, hp] using ih (n + 1) h

/-- The selection chain on a list: first match, else first default, else
head. -/
theorem get?_findIdx?_chain (p q : α → Bool) (l : List α) :
    (match l.findIdx? p with
      | some i => l[i]?
      | none =>
        match l.findIdx? q with
        | some i => l[i]?
        | none => l[0]?) =
    ((l.find? p).or ((l.find? q).or l.head?)) := by
  cases hfp : l.findIdx? p with
  | some i =>
    obtain ⟨-, h2, a, h3⟩ := findIdx?_some_get p l 0 i hfp
    simp at h2
    simp [h2, h3]
  | none =>
    have hf := findIdx?_none_find? p l 0 hfp
    cases hfq : l.findIdx? q with
    | some i =>
      obtain ⟨-, h2, a, h3⟩ := findIdx?_some_get q l 0 i hfq
      simp at h2
      simp [hf, h2, h3]
    | none =>
      have hg := findIdx?_none_find? q l 0 hfq
      simp [hf, hg, List.head?_eq_getElem?]

/-! Claim theorems. -/

/-- C5: for a catalog built from `c` custom entries and a builtin
manifest of `b` entries, `allMediaItems` has length `c + b`, with the
`c` custom entries first (insertion order, as custom items carrying
their path and id) followed by the `b` builtin entries (manifest
order), and `getPositionKey` at position `i` gives the i-th custom
entry's id for `i < c` and `homeBannerMedia[i - c].fileName` for
`c ≤ i < c + b`. -/
theorem allMediaItems_index_to_key (homeBannerMedia : List BannerMedia)
    (s : UserSettings) (entries : List HomeBannerCustomMediaItem)
    (hc : s.homeBannerCustomMedia = some entries) :
    (allMediaItems homeBannerMedia s).length
        = entries.length + homeBannerMedia.length
    ∧ (∀ i e, entries[i]? = some e →
        (allMediaItems homeBannerMedia s)[i]? =
          some (MediaItem.custom i e.path e.id (customFileName e.path)
            (if isVideoExtension (getExtension (customFileName e.path))
              then MediaType.video else MediaType.image))
        ∧ ((allMediaItems homeBannerMedia s)[i]?).map getPositionKey
            = some e.id)
    ∧ (∀ i, entries.length ≤ i → i < entries.length + homeBannerMedia.length →
        ((allMediaItems homeBannerMedia s)[i]?).map getPositionKey
          = (homeBannerMedia[i - entries.length]?).map (·.fileName)) := by
  have hci : customItems s = entries := by simp [customItems, hc]
  unfold allMediaItems
  rw [hci]
  refine ⟨?_, ?_, ?_⟩
  · simp [List.enum_length]
  · intro i e he
    have hi : i < entries.length := by
      by_contra hlt
      rw [List.getElem?_eq_none (by omega)] at he
      exact Option.noConfusion he
    have hleft :
        ((entries.enum.map (fun p =>
            let fileName := customFileName p.2.path
            let ext := getExtension fileName
            let type := if isVideoExtension ext then MediaType.video
              else MediaType.image
            MediaItem.custom p.1 p.2.path p.2.id fileName type))
          ++ homeBannerMedia.enum.map (fun p => MediaItem.builtin p.1 p.2))[i]? =
        (entries.enum.map (fun p =>
            let fileName := customFileName p.2.path
            let ext := getExtension fileName
            let type := if isVideoExtension ext then MediaType.video
              else MediaType.image
            MediaItem.custom p.1 p.2.path p.2.id fileName type))[i]? :=
      List.getElem?_append_left (by simp [List.enum_length]; omega)
    rw [hleft, List.getElem?_map, List.getElem?_enum, he]
    simp [getPositionKey]
  · intro i h1 h2
    have hright :
        ((entries.enum.map (fun p =>
            let fileName := customFileName p.2.path
            let ext := getExtension fileName
            let type := if isVideoExtension ext then MediaType.video
              else MediaType.image
            MediaItem.custom p.1 p.2.path p.2.id fileName type))
          ++ homeBannerMedia.enum.map (fun p => MediaItem.builtin p.1 p.2))[i]? =
        (homeBannerMedia.enum.map (fun p => MediaItem.builtin p.1 p.2))[i -
          (entries.enum.map (fun p =>
            let fileName := customFileName p.2.path
            let ext := getExtension fileName
            let type := if isVideoExtension ext then MediaType.video
              else MediaType.image
            MediaItem.custom p.1 p.2.path p.2.id fileName type)).length]? :=
      List.getElem?_append_right (by simp [List.enum_length]; omega)
    rw [hright]
    simp only [List.length_map, List.enum_length]
    rw [List.getElem?_map, List.getElem?_enum]
    cases hm : homeBannerMedia[i - entries.length]? with
    | none => simp
    | some m => simp [getPositionKey]

/-- Witness for C5 at a concrete two-custom one-builtin catalog. -/
theorem allMediaItems_index_to_key_witness :
    (allMediaItems [⟨"b1.jpg", "B1", .image⟩]
        { homeBannerCustomMedia := some [⟨"/x/a.jpg", "idA"⟩, ⟨"/x/b.mp4", "idB"⟩] }).length = 3
    ∧ ((allMediaItems [⟨"b1.jpg", "B1", .image⟩]
        { homeBannerCustomMedia := some [⟨"/x/a.jpg", "idA"⟩, ⟨"/x/b.mp4", "idB"⟩] })[1]?).map
          getPositionKey = some "idB"
    ∧ ((allMediaItems [⟨"b1.jpg", "B1", .image⟩]
        { homeBannerCustomMedia := some [⟨"/x/a.jpg", "idA"⟩, ⟨"/x/b.mp4", "idB"⟩] })[2]?).map
          getPositionKey = some "b1.jpg" := by
  have h := allMediaItems_index_to_key [⟨"b1.jpg", "B1", .image⟩]
    { homeBannerCustomMedia := some [⟨"/x/a.jpg", "idA"⟩, ⟨"/x/b.mp4", "idB"⟩] }
    [⟨"/x/a.jpg", "idA"⟩, ⟨"/x/b.mp4", "idB"⟩] rfl
  refine ⟨h.1, (h.2.1 1 ⟨"/x/b.mp4", "idB"⟩ (by decide)).2, ?_⟩
  have := h.2.2 2 (by decide) (by decide)
  simpa using this

/-- The default-builtin predicate of `normalizedIndex` /
`getInfusionMediaFromBackground`. -/
def isDefaultBuiltin (name : String) : MediaItem → Bool
  | .builtin _ data => data.fileName = name
  | _ => false

/-- C6: resolving the selected entry is total and follows the fallback
chain — exact position-key match, else the builtin with the default
file name, else the first catalog entry — and on an empty catalog
`currentItem` is `none` while the infusion resolver returns the
sentinel `{url: '', type: image}`.  (The stored id enters through
`mediaIdOf`, which substitutes the default file name when the stored
value is absent or blank; the infusion resolver does the same with its
own default constant.) -/
theorem selection_resolution_fallback_chain
    (homeBannerMedia : List BannerMedia)
    (DEFAULT_HOME_BANNER_FILE_NAME DEFAULT_INFUSION_BACKGROUND_FILE_NAME : String)
    (builtinBannerImages builtinBannerVideos : List (String × String))
    (convertFileSrc : String → String)
    (s : UserSettings) (background : InfusionBackground) :
    currentItem homeBannerMedia DEFAULT_HOME_BANNER_FILE_NAME s
      = (((allMediaItems homeBannerMedia s).find? (fun it =>
            getPositionKey it = mediaIdOf DEFAULT_HOME_BANNER_FILE_NAME s)).or
          (((allMediaItems homeBannerMedia s).find?
              (isDefaultBuiltin DEFAULT_HOME_BANNER_FILE_NAME)).or
            (allMediaItems homeBannerMedia s).head?))
    ∧ (allMediaItems homeBannerMedia s = [] →
        currentItem homeBannerMedia DEFAULT_HOME_BANNER_FILE_NAME s = none)
    ∧ (getInfusionMediaFromBackground homeBannerMedia
          DEFAULT_INFUSION_BACKGROUND_FILE_NAME builtinBannerImages
          builtinBannerVideos convertFileSrc s background
        = (match
            (((allMediaItems homeBannerMedia s).find? (fun it =>
                getPositionKey it =
                  (match background.mediaId with
                    | some m => if jsTrim m ≠ "" then m
                        else DEFAULT_INFUSION_BACKGROUND_FILE_NAME
                    | none => DEFAULT_INFUSION_BACKGROUND_FILE_NAME))).or
              (((allMediaItems homeBannerMedia s).find?
                  (isDefaultBuiltin DEFAULT_INFUSION_BACKGROUND_FILE_NAME)).or
                (allMediaItems homeBannerMedia s).head?)) with
          | some it =>
            { url := getMediaUrl builtinBannerImages builtinBannerVideos
                convertFileSrc it,
              type := mediaTypeOf it }
          | none => { url := "", type := MediaType.image }))
    ∧ (allMediaItems homeBannerMedia s = [] →
        getInfusionMediaFromBackground homeBannerMedia
          DEFAULT_INFUSION_BACKGROUND_FILE_NAME builtinBannerImages
          builtinBannerVideos convertFileSrc s background
        = { url := "", type := MediaType.image }) := by
  have hchain :
      currentItem homeBannerMedia DEFAULT_HOME_BANNER_FILE_NAME s
      = (((allMediaItems homeBannerMedia s).find? (fun it =>
            getPositionKey it = mediaIdOf DEFAULT_HOME_BANNER_FILE_NAME s)).or
          (((allMediaItems homeBannerMedia s).find?
              (isDefaultBuiltin DEFAULT_HOME_BANNER_FILE_NAME)).or
            (allMediaItems homeBannerMedia s).head?)) := by
    unfold currentItem normalizedIndex
    by_cases he : (allMediaItems homeBannerMedia s).isEmpty
    · rw [List.isEmpty_iff] at he
      simp [he]
    · rw [if_neg he]
      rw [← get?_findIdx?_chain (fun it =>
          getPositionKey it = mediaIdOf DEFAULT_HOME_BANNER_FILE_NAME s)
        (isDefaultBuiltin DEFAULT_HOME_BANNER_FILE_NAME)
        (allMediaItems homeBannerMedia s)]
      have hb : (fun it => decide (getPositionKey it =
          mediaIdOf DEFAULT_HOME_BANNER_FILE_NAME s)) = (fun it =>
          getPositionKey it = mediaIdOf DEFAULT_HOME_BANNER_FILE_NAME s) := rfl
      have hq : (fun item =>
          match item with
          | MediaItem.builtin _ data =>
            decide (data.fileName = DEFAULT_HOME_BANNER_FILE_NAME)
          | _ => false) = isDefaultBuiltin DEFAULT_HOME_BANNER_FILE_NAME := by
        funext it
        cases it <;> rfl
      rw [hq]
      cases (allMediaItems homeBannerMedia s).findIdx? (fun it =>
          getPositionKey it = mediaIdOf DEFAULT_HOME_BANNER_FILE_NAME s) with
      | some i => simp [List.get?_eq_getElem?]
      | none =>
        cases (allMediaItems homeBannerMedia s).findIdx?
            (isDefaultBuiltin DEFAULT_HOME_BANNER_FILE_NAME) with
        | some i => simp [List.get?_eq_getElem?]
        | none => simp [List.get?_eq_getElem?]
  have hinf :
      getInfusionMediaFromBackground homeBannerMedia
          DEFAULT_INFUSION_BACKGROUND_FILE_NAME builtinBannerImages
          builtinBannerVideos convertFileSrc s background
        = (match
            (((allMediaItems homeBannerMedia s).find? (fun it =>
                getPositionKey it =
                  (match background.mediaId with
                    | some m => if jsTrim m ≠ "" then m
                        else DEFAULT_INFUSION_BACKGROUND_FILE_NAME
                    | none => DEFAULT_INFUSION_BACKGROUND_FILE_NAME))).or
              (((allMediaItems homeBannerMedia s).find?
                  (isDefaultBuiltin DEFAULT_INFUSION_BACKGROUND_FILE_NAME)).or
                (allMediaItems homeBannerMedia s).head?)) with
          | some it =>
            { url := getMediaUrl builtinBannerImages builtinBannerVideos
                convertFileSrc it,
              type := mediaTypeOf it }
          | none => { url := "", type := MediaType.image }) := by
    unfold getInfusionMediaFromBackground
    dsimp only
    have hq : (fun i =>
        match i with
        | MediaItem.builtin _ data =>
          decide (data.fileName = DEFAULT_INFUSION_BACKGROUND_FILE_NAME)
        | _ => false) = isDefaultBuiltin DEFAULT_INFUSION_BACKGROUND_FILE_NAME := by
      funext it
      cases it <;> rfl
    rw [hq]
    cases (allMediaItems homeBannerMedia s).find? (fun it =>
        getPositionKey it =
          (match background.mediaId with
            | some m => if jsTrim m ≠ "" then m
                else DEFAULT_INFUSION_BACKGROUND_FILE_NAME
            | none => DEFAULT_INFUSION_BACKGROUND_FILE_NAME)) with
    | some it => rfl
    | none =>
      cases (allMediaItems homeBannerMedia s).find?
          (isDefaultBuiltin DEFAULT_INFUSION_BACKGROUND_FILE_NAME) with
      | some f => rfl
      | none =>
        cases (allMediaItems homeBannerMedia s).head? with
        | some h => rfl
        | none => rfl
  refine ⟨hchain, ?_, hinf, ?_⟩
  · intro he
    rw [hchain, he]
    rfl
  · intro he
    rw [hinf, he]
    rfl

/-- Witness for C6: on the empty catalog (no custom entries, empty
manifest) the resolver yields the sentinels. -/
theorem selection_resolution_fallback_chain_witness :
    currentItem [] "b1.jpg" { homeBannerMediaId := some "ghost" } = none
    ∧ getInfusionMediaFromBackground [] "b1.jpg" [] [] id
        { homeBannerMediaId := some "ghost" } { mediaId := some "ghost" }
      = { url := "", type := MediaType.image } := by
  have h := selection_resolution_fallback_chain [] "b1.jpg" "b1.jpg" [] [] id
    { homeBannerMediaId := some "ghost" } { mediaId := some "ghost" }
  exact ⟨h.2.1 (by decide), h.2.2.2 (by decide)⟩

/-- C8: the 1→2 step writes each of the two destination keys with the
legacy boolean exactly when the legacy key holds a boolean and that
destination does not already hold one; when the legacy key is absent
or not a boolean the store is untouched. -/
theorem migrateStep1to2_guarded_rename (homeBannerMedia : List BannerMedia)
    (DEFAULT_HOME_BANNER_FILE_NAME : String) (genId : Nat → String)
    (st : Store) :
    (∀ b : Bool, asBoolVal st.navigatorUseSystemIcons = some b →
      migrateUserSettingsStep homeBannerMedia DEFAULT_HOME_BANNER_FILE_NAME
          genId 1 2 st
        = (false,
          { st with
            navigatorUseSystemIconsForDirectories :=
              if isBoolVal st.navigatorUseSystemIconsForDirectories then
                st.navigatorUseSystemIconsForDirectories
              else some (.jbool b)
            navigatorUseSystemIconsForFiles :=
              if isBoolVal st.navigatorUseSystemIconsForFiles then
                st.navigatorUseSystemIconsForFiles
              else some (.jbool b) }))
    ∧ (asBoolVal st.navigatorUseSystemIcons = none →
      migrateUserSettingsStep homeBannerMedia DEFAULT_HOME_BANNER_FILE_NAME
          genId 1 2 st = (false, st)) := by
  have hstep : migrateUserSettingsStep homeBannerMedia
      DEFAULT_HOME_BANNER_FILE_NAME genId 1 2 st
      = (false, migrateStep1to2 st) := rfl
  rw [hstep]
  constructor
  · intro b hb
    unfold migrateStep1to2
    rw [hb]
    cases hd : isBoolVal st.navigatorUseSystemIconsForDirectories <;>
      cases hf : isBoolVal st.navigatorUseSystemIconsForFiles <;>
      simp
  · intro hb
    unfold migrateStep1to2
    rw [hb]

/-- Witness for C8: legacy `true` with only the directories key already
set copies the boolean into the files key only. -/
theorem migrateStep1to2_guarded_rename_witness :
    migrateUserSettingsStep [] "d" (fun _ => "i") 1 2
        { navigatorUseSystemIcons := some (.jbool true),
          navigatorUseSystemIconsForDirectories := some (.jbool false) }
      = (false,
        { navigatorUseSystemIcons := some (.jbool true),
          navigatorUseSystemIconsForDirectories := some (.jbool false),
          navigatorUseSystemIconsForFiles := some (.jbool true) }) := by
  have h := (migrateStep1to2_guarded_rename [] "d" (fun _ => "i")
    { navigatorUseSystemIcons := some (.jbool true),
      navigatorUseSystemIconsForDirectories := some (.jbool false) }).1
    true (by decide)
  simpa using h

/-- C4: when the stored `homeBannerMediaId` is absent, not a string, or
blank after trimming, the 3→4 step writes `homeBannerMediaId` derived
from the legacy index (0 when not a number): below the custom count it
is that custom entry's id; in the builtin range it is the builtin file
name at the offset; outside `[0, total)` or on an empty catalog it is
the fixed default file name. -/
theorem migrateStep3to4_derives_mediaId (homeBannerMedia : List BannerMedia)
    (DEFAULT_HOME_BANNER_FILE_NAME : String) (genId : Nat → String)
    (st : Store)
    (hblank : mediaIdNeedsDerivation st.homeBannerMediaId = true) :
    (∀ e idv, 0 ≤ storedIndex st.homeBannerIndex →
      jsGet (storedCustomElems st.homeBannerCustomMedia)
          (storedIndex st.homeBannerIndex) = some e →
      e.getField "id" = some idv → idv.truthy = true →
      migrateUserSettingsStep homeBannerMedia DEFAULT_HOME_BANNER_FILE_NAME
          genId 3 4 st
        = (false, { st with homeBannerMediaId := some idv }))
    ∧ (∀ m : BannerMedia,
      ((storedCustomElems st.homeBannerCustomMedia).length : Int) ≤
          storedIndex st.homeBannerIndex →
      homeBannerMedia[(storedIndex st.homeBannerIndex -
          (storedCustomElems st.homeBannerCustomMedia).length).toNat]? = some m →
      storedIndex st.homeBannerIndex <
          ((storedCustomElems st.homeBannerCustomMedia).length
            + homeBannerMedia.length : Int) →
      migrateUserSettingsStep homeBannerMedia DEFAULT_HOME_BANNER_FILE_NAME
          genId 3 4 st
        = (false, { st with homeBannerMediaId := some (.jstr m.fileName) }))
    ∧ (storedIndex st.homeBannerIndex < 0 ∨
        ((storedCustomElems st.homeBannerCustomMedia).length
            + homeBannerMedia.length : Int) ≤ storedIndex st.homeBannerIndex ∨
        (storedCustomElems st.homeBannerCustomMedia).length
            + homeBannerMedia.length = 0 →
      migrateUserSettingsStep homeBannerMedia DEFAULT_HOME_BANNER_FILE_NAME
          genId 3 4 st
        = (false,
          { st with
            homeBannerMediaId := some (.jstr DEFAULT_HOME_BANNER_FILE_NAME) })) := by
  have hstep : migrateUserSettingsStep homeBannerMedia
      DEFAULT_HOME_BANNER_FILE_NAME genId 3 4 st
      = (false, migrateStep3to4 homeBannerMedia DEFAULT_HOME_BANNER_FILE_NAME st) := rfl
  rw [hstep]
  unfold migrateStep3to4 derivedMediaId
  rw [hblank]
  simp only [if_true]
  refine ⟨?_, ?_, ?_⟩
  · intro e idv h0 he hid htr
    have hlt : storedIndex st.homeBannerIndex <
        ((storedCustomElems st.homeBannerCustomMedia).length : Int) := by
      by_contra hge
      push_neg at hge
      unfold jsGet at he
      rw [if_neg (by omega), List.get?_eq_getElem?] at he
      have := List.getElem?_eq_none (l := storedCustomElems st.homeBannerCustomMedia)
        (n := (storedIndex st.homeBannerIndex).toNat) (by omega)
      rw [this] at he
      exact Option.noConfusion he
    have hcond : (0 < (storedCustomElems st.homeBannerCustomMedia).length
          + homeBannerMedia.length)
        ∧ 0 ≤ storedIndex st.homeBannerIndex
        ∧ storedIndex st.homeBannerIndex <
          (((storedCustomElems st.homeBannerCustomMedia).length
            + homeBannerMedia.length : Nat) : Int) := by
      refine ⟨by omega, h0, by push_cast; omega⟩
    rw [if_pos hcond, if_pos hlt, he]
    have hobj : e.truthy = true ∧ e.isObjectType = true := by
      cases e with
      | jobj fields => exact ⟨rfl, rfl⟩
      | jnull => exact absurd hid (by simp [JVal.getField])
      | jbool b => exact absurd hid (by simp [JVal.getField])
      | jnum n => exact absurd hid (by simp [JVal.getField])
      | jstr s => exact absurd hid (by simp [JVal.getField])
      | jarr xs => exact absurd hid (by simp [JVal.getField])
    simp [hobj.1, hobj.2, htr, hid]
  · intro m hge hm hlt
    have hcond : (0 < (storedCustomElems st.homeBannerCustomMedia).length
          + homeBannerMedia.length)
        ∧ 0 ≤ storedIndex st.homeBannerIndex
        ∧ storedIndex st.homeBannerIndex <
          (((storedCustomElems st.homeBannerCustomMedia).length
            + homeBannerMedia.length : Nat) : Int) := by
      have hm' : homeBannerMedia.length ≠ 0 := by
        intro h0
        rw [List.getElem?_eq_none (by omega)] at hm
        exact Option.noConfusion hm
      refine ⟨by omega, by omega, by push_cast; omega⟩
    rw [← List.get?_eq_getElem?] at hm
    rw [if_pos hcond, if_neg (by omega), hm]
  · intro hout
    rcases hout with h | h | h
    · rw [if_neg (by push_cast; omega)]
    · rw [if_neg (by push_cast; omega)]
    · rw [if_neg (by push_cast; omega)]

/-- Witness for C4: index 1 with one (id-bearing) custom entry and a
one-entry manifest resolves to the builtin file name (the spec's
Scenario B), exercised through the second conjunct. -/
theorem migrateStep3to4_derives_mediaId_witness :
    migrateUserSettingsStep [⟨"b1.jpg", "B1", .image⟩] "b1.jpg"
        (fun _ => "i") 3 4
        { homeBannerCustomMedia := some (.jarr
            [.jobj [("path", .jstr "/a"), ("id", .jstr "cafe")]]),
          homeBannerIndex := some (.jnum 1) }
      = (false,
        { homeBannerCustomMedia := some (.jarr
            [.jobj [("path", .jstr "/a"), ("id", .jstr "cafe")]]),
          homeBannerIndex := some (.jnum 1),
          homeBannerMediaId := some (.jstr "b1.jpg") }) := by
  have h := (migrateStep3to4_derives_mediaId [⟨"b1.jpg", "B1", .image⟩]
    "b1.jpg" (fun _ => "i")
    { homeBannerCustomMedia := some (.jarr
        [.jobj [("path", .jstr "/a"), ("id", .jstr "cafe")]]),
      homeBannerIndex := some (.jnum 1) } (by decide)).2.1
    ⟨"b1.jpg", "B1", .image⟩ (by decide) (by decide) (by decide)
  simpa using h

/-! Lemmas about `objSet` (JavaScript property assignment / spread). -/

theorem find?_objSetMap (k k' : String) (v : JVal) (hne : k' ≠ k) :
    ∀ fields : List (String × JVal),
      (fields.map (fun kv => if kv.1 == k then (k, v) else kv)).find?
          (fun kv => kv.1 == k')
        = fields.find? (fun kv => kv.1 == k') := by
  intro fields
  induction fields with
  | nil => rfl
  | cons kv rest ih =>
    by_cases hk : kv.1 == k
    · have hkk : kv.1 = k := by simpa using hk
      simp only [List.map_cons, if_pos hk, List.find?_cons]
      have h1 : ¬(k == k') := by simp; exact fun hx => hne hx.symm
      have h2 : ¬(kv.1 == k') := by simp [hkk]; exact fun hx => hne hx.symm
      simp only [h1, h2]
      simpa using ih
    · simp only [List.map_cons, if_neg hk, List.find?_cons]
      by_cases hkv : kv.1 == k'
      · simp [hkv]
      · simp only [hkv]
        simpa using ih

theorem find?_objSetMap_self (k : String) (v : JVal) :
    ∀ fields : List (String × JVal),
      fields.any (fun kv => kv.1 == k) = true →
      (fields.map (fun kv => if kv.1 == k then (k, v) else kv)).find?
          (fun kv => kv.1 == k)
        = some (k, v) := by
  intro fields
  induction fields with
  | nil => intro h; simp at h
  | cons kv rest ih =>
    intro h
    rw [List.map_cons, List.find?_cons]
    by_cases hk : kv.1 == k
    · rw [if_pos hk]
      have hkt : (((k, v) : String × JVal).1 == k) = true := by simp
      simp only [hkt]
    · have hrest : rest.any (fun kv => kv.1 == k) = true := by
        rcases List.any_eq_true.mp h with ⟨x, hx, hpx⟩
        rcases List.mem_cons.mp hx with hx | hx
        · exact absurd (by simpa [hx] using hpx) (by simpa using hk)
        · exact List.any_eq_true.mpr ⟨x, hx, hpx⟩
      have hkf : (kv.1 == k) = false := by simpa using hk
      rw [if_neg hk]
      simp only [hkf]
      exact ih hrest

theorem objLookup_objSet_self (fields : List (String × JVal)) (k : String)
    (v : JVal) : objLookup (objSet fields k v) k = some v := by
  unfold objSet objLookup
  by_cases h : fields.any (fun kv => kv.1 == k)
  · rw [if_pos h, find?_objSetMap_self k v fields h]
    rfl
  · rw [if_neg h, List.find?_append]
    have hnone : fields.find? (fun kv => kv.1 == k) = none := by
      rw [List.find?_eq_none]
      intro x hx hpx
      exact h (List.any_eq_true.mpr ⟨x, hx, hpx⟩)
    rw [hnone]
    simp [List.find?_cons]

theorem objLookup_objSet_ne (fields : List (String × JVal)) (k k' : String)
    (v : JVal) (hne : k' ≠ k) :
    objLookup (objSet fields k v) k' = objLookup fields k' := by
  unfold objSet objLookup
  by_cases h : fields.any (fun kv => kv.1 == k)
  · rw [if_pos h, find?_objSetMap k k' v hne fields]
  · rw [if_neg h, List.find?_append]
    have hone : List.find? (fun kv => kv.1 == k')
        ([(k, v)] : List (String × JVal)) = none := by
      have hkk : (k == k') = false := by
        simp
        exact fun hx => hne (Eq.symm hx)
      simp [List.find?_cons, hkk]
    rw [hone]
    cases fields.find? (fun kv => kv.1 == k') <;> rfl

/-- C7: the 4→5 step rewrites exactly the six enumerated page
background descriptors through `migrateBackground`, leaving every
other store key unchanged; a descriptor without a truthy `mediaId` but
with a numeric index inside the builtin manifest gets `mediaId` set to
that builtin's file name with every other field preserved, while a
descriptor that has a `mediaId`, has no numeric index, or whose index
falls outside the manifest is returned unchanged. -/
theorem migrateStep4to5_background_rewrite
    (homeBannerMedia : List BannerMedia)
    (DEFAULT_HOME_BANNER_FILE_NAME : String) (genId : Nat → String)
    (st : Store) (fields : List (String × JVal)) (v : JVal) :
    (migrateUserSettingsStep homeBannerMedia DEFAULT_HOME_BANNER_FILE_NAME
        genId 4 5 st
      = (false,
        { st with
          infusionPagesGlobalBackground :=
            migrateBackground homeBannerMedia st.infusionPagesGlobalBackground
          infusionPagesHomeBackground :=
            migrateBackground homeBannerMedia st.infusionPagesHomeBackground
          infusionPagesNavigatorBackground :=
            migrateBackground homeBannerMedia st.infusionPagesNavigatorBackground
          infusionPagesDashboardBackground :=
            migrateBackground homeBannerMedia st.infusionPagesDashboardBackground
          infusionPagesSettingsBackground :=
            migrateBackground homeBannerMedia st.infusionPagesSettingsBackground
          infusionPagesExtensionsBackground :=
            migrateBackground homeBannerMedia st.infusionPagesExtensionsBackground }))
    ∧ (∀ i m, bgTruthyMediaId (.jobj fields) = false →
        bgNumericIndex (.jobj fields) = some i →
        0 ≤ i → homeBannerMedia[i.toNat]? = some m →
        migrateBackground homeBannerMedia (some (.jobj fields))
            = some (.jobj (objSet fields "mediaId" (.jstr m.fileName)))
          ∧ objLookup (objSet fields "mediaId" (.jstr m.fileName)) "mediaId"
            = some (.jstr m.fileName)
          ∧ ∀ k, k ≠ "mediaId" →
            objLookup (objSet fields "mediaId" (.jstr m.fileName)) k
              = objLookup fields k)
    ∧ (bgTruthyMediaId v = true → migrateBackground homeBannerMedia (some v)
        = some v)
    ∧ (bgNumericIndex v = none → migrateBackground homeBannerMedia (some v)
        = some v)
    ∧ (∀ i, bgNumericIndex v = some i →
        (i < 0 ∨ (homeBannerMedia.length : Int) ≤ i) →
        migrateBackground homeBannerMedia (some v) = some v) := by
  refine ⟨rfl, ?_, ?_, ?_, ?_⟩
  · intro i m hmid hidx h0 hm
    unfold migrateBackground
    dsimp only
    rw [hmid, hidx]
    have htr : JVal.truthy (.jobj fields) = true := rfl
    have hot : JVal.isObjectType (.jobj fields) = true := rfl
    rw [← List.get?_eq_getElem?] at hm
    simp only [htr, hot, Bool.not_false, Option.isSome_some, Bool.and_true,
      Bool.true_and, if_true, Option.getD_some]
    rw [if_neg (by omega), hm]
    exact ⟨rfl, objLookup_objSet_self fields "mediaId" (.jstr m.fileName),
      fun k hk => objLookup_objSet_ne fields "mediaId" k (.jstr m.fileName) hk⟩
  · intro hmid
    unfold migrateBackground
    dsimp only
    rw [hmid]
    simp
  · intro hidx
    unfold migrateBackground
    dsimp only
    rw [hidx]
    simp
  · intro i hidx hout
    unfold migrateBackground
    dsimp only
    rw [hidx]
    by_cases hc : (v.truthy && v.isObjectType && !bgTruthyMediaId v
        && (some i).isSome) = true
    · rw [if_pos hc]
      simp only [Option.getD_some]
      have hnone : (if (i : Int) < 0 then none
          else homeBannerMedia.get? i.toNat) = none := by
        by_cases hneg : (i : Int) < 0
        · rw [if_pos hneg]
        · rw [if_neg hneg, List.get?_eq_getElem?, List.getElem?_eq_none]
          rcases hout with h | h
          · omega
          · omega
      rw [hnone]
    · rw [if_neg hc]

/-- Witness for C7: a descriptor `{type, index: 0}` against a one-entry
manifest gains `mediaId` and keeps its other field. -/
theorem migrateStep4to5_background_rewrite_witness :
    migrateBackground [⟨"b1.jpg", "B1", .image⟩]
        (some (.jobj [("type", .jstr "t"), ("index", .jnum 0)]))
      = some (.jobj [("type", .jstr "t"), ("index", .jnum 0),
          ("mediaId", .jstr "b1.jpg")])
    ∧ objLookup (objSet [("type", .jstr "t"), ("index", .jnum 0)]
          "mediaId" (.jstr "b1.jpg")) "type" = some (.jstr "t") := by
  have h := (migrateStep4to5_background_rewrite [⟨"b1.jpg", "B1", .image⟩]
    "b1.jpg" (fun _ => "i") {} [("type", .jstr "t"), ("index", .jnum 0)]
    .jnull).2.1 0 ⟨"b1.jpg", "B1", .image⟩ (by decide) (by decide)
    (by decide) (by decide)
  refine ⟨?_, ?_⟩
  · rw [h.1]
    decide
  · rw [h.2.2 "type" (by decide)]
    decide

/-- C9: `addMediaUrl` appends exactly one `{path, id}` entry (fresh id
from the id supply) when the trimmed http(s) URL equals no existing
custom entry's path, and leaves the settings entirely unchanged when
one does; `addFilesFromPaths` (with the external copy succeeding)
appends one entry per source path in input order — existing entries
are kept as a prefix and equal paths are not deduplicated. -/
theorem addMedia_append_semantics (DEFAULT_HOME_BANNER_FILE_NAME : String)
    (genId : Nat → String) (destDir : String) (s : UserSettings)
    (url : String) (sourcePaths : List String) :
    (isUrl (jsTrim url) = true →
      (∀ e ∈ s.homeBannerCustomMedia.getD [], e.path ≠ jsTrim url) →
      (addMediaUrl DEFAULT_HOME_BANNER_FILE_NAME genId s url).homeBannerCustomMedia
        = some (s.homeBannerCustomMedia.getD []
            ++ [{ path := jsTrim url, id := genId 0 }]))
    ∧ (isUrl (jsTrim url) = true →
      (∃ e ∈ s.homeBannerCustomMedia.getD [], e.path = jsTrim url) →
      addMediaUrl DEFAULT_HOME_BANNER_FILE_NAME genId s url = s)
    ∧ (sourcePaths ≠ [] → destDir ≠ "" →
      (addFilesFromPaths DEFAULT_HOME_BANNER_FILE_NAME genId destDir true
          s sourcePaths).map (·.homeBannerCustomMedia)
        = some (some (s.homeBannerCustomMedia.getD []
            ++ (sourcePaths.enum).map (fun p =>
              { path := collapseSlashes ((backslashesToSlashes destDir) ++ "/"
                  ++ (((splitPathSeps p.2).getLast?).getD p.2)),
                id := genId p.1 })))) := by
  refine ⟨?_, ?_, ?_⟩
  · intro hurl hno
    unfold addMediaUrl
    dsimp only
    have hcond : ¬(jsTrim url = "" ∨ (!isUrl (jsTrim url)) = true) := by
      rintro (h | h)
      · rw [h] at hurl
        exact absurd hurl (by decide)
      · rw [hurl] at h
        exact absurd h (by decide)
    rw [if_neg hcond]
    have hany : (s.homeBannerCustomMedia.getD []).any
        (fun entry => entry.path = jsTrim url) = false := by
      rw [← Bool.not_eq_true, List.any_eq_true]
      rintro ⟨e, he, hpe⟩
      exact hno e he (by simpa using hpe)
    rw [if_neg (by rw [hany]; exact Bool.false_ne_true)]
  · intro hurl hyes
    unfold addMediaUrl
    dsimp only
    have hcond : ¬(jsTrim url = "" ∨ (!isUrl (jsTrim url)) = true) := by
      rintro (h | h)
      · rw [h] at hurl
        exact absurd hurl (by decide)
      · rw [hurl] at h
        exact absurd h (by decide)
    rw [if_neg hcond]
    have hany : (s.homeBannerCustomMedia.getD []).any
        (fun entry => entry.path = jsTrim url) = true := by
      rw [List.any_eq_true]
      rcases hyes with ⟨e, he, hpe⟩
      exact ⟨e, he, by simpa using hpe⟩
    rw [if_pos hany]
  · intro hne hd
    unfold addFilesFromPaths
    rw [if_neg (by simpa using hne), if_neg hd]
    rfl

/-- Witness for C9: adding a fresh URL appends it; re-adding it is a
no-op; adding two files appends two entries. -/
theorem addMedia_append_semantics_witness :
    (addMediaUrl "d" (fun _ => "fresh1")
        { homeBannerCustomMedia := some [⟨"http://a/x.jpg", "old1"⟩] }
        " http://b/y.jpg ").homeBannerCustomMedia
      = some [⟨"http://a/x.jpg", "old1"⟩, ⟨"http://b/y.jpg", "fresh1"⟩]
    ∧ addMediaUrl "d" (fun _ => "fresh1")
        { homeBannerCustomMedia := some [⟨"http://a/x.jpg", "old1"⟩] }
        "http://a/x.jpg"
      = { homeBannerCustomMedia := some [⟨"http://a/x.jpg", "old1"⟩] }
    ∧ (addFilesFromPaths "d" (fun i => "f" ++ toString i) "/dest" true
        { homeBannerCustomMedia := some [⟨"/dest/a.jpg", "old1"⟩] }
        ["/src/a.jpg", "/src2//a.jpg"]).map (·.homeBannerCustomMedia)
      = some (some [⟨"/dest/a.jpg", "old1"⟩, ⟨"/dest/a.jpg", "f0"⟩,
          ⟨"/dest/a.jpg", "f1"⟩]) := by
  have h := addMedia_append_semantics "d" (fun _ => "fresh1") "/dest"
    { homeBannerCustomMedia := some [⟨"http://a/x.jpg", "old1"⟩] }
    " http://b/y.jpg " []
  have h2 := addMedia_append_semantics "d" (fun _ => "fresh1") "/dest"
    { homeBannerCustomMedia := some [⟨"http://a/x.jpg", "old1"⟩] }
    "http://a/x.jpg" []
  have h3 := addMedia_append_semantics "d" (fun i => "f" ++ toString i) "/dest"
    { homeBannerCustomMedia := some [⟨"/dest/a.jpg", "old1"⟩] }
    "" ["/src/a.jpg", "/src2//a.jpg"]
  refine ⟨?_, ?_, ?_⟩
  · rw [h.1 (by decide) (by decide)]
    decide
  · exact h2.2.1 (by decide) ⟨⟨"http://a/x.jpg", "old1"⟩, by decide, rfl⟩
  · rw [h3.2.2 (by decide) (by decide)]
    decide

/-! Idempotence lemmas for the individual migration steps. -/

theorem migrateStep1to2_idem (st : Store) :
    migrateStep1to2 (migrateStep1to2 st) = migrateStep1to2 st := by
  unfold migrateStep1to2
  cases ho : asBoolVal st.navigatorUseSystemIcons with
  | none =>
    simp only [ho]
  | some b =>
    have hb : isBoolVal (some (JVal.jbool b)) = true := rfl
    cases hd : isBoolVal st.navigatorUseSystemIconsForDirectories <;>
      cases hf : isBoolVal st.navigatorUseSystemIconsForFiles <;>
      simp only [ho, hd, hf, Bool.not_false, Bool.not_true, if_true,
        if_false, ite_true, ite_false] <;>
      simp [ho, hd, hf, hb]

theorem objSet_mem_key (f : List (String × JVal)) (k : String) (v : JVal) :
    ∀ kv ∈ objSet f k v, kv.1 = k → kv = (k, v) := by
  intro kv hm hk
  unfold objSet at hm
  by_cases h : f.any (fun kv => kv.1 == k)
  · rw [if_pos h] at hm
    rcases List.mem_map.mp hm with ⟨orig, _, heq⟩
    by_cases ho : orig.1 == k
    · rw [if_pos ho] at heq
      exact heq.symm
    · rw [if_neg ho] at heq
      subst heq
      exact absurd (by simpa using hk) ho
  · rw [if_neg h] at hm
    rcases List.mem_append.mp hm with hm | hm
    · exact absurd (List.any_eq_true.mpr ⟨kv, hm, by simpa using hk⟩) h
    · simpa using hm

theorem objSet_any_key (f : List (String × JVal)) (k : String) (v : JVal) :
    (objSet f k v).any (fun kv => kv.1 == k) = true := by
  have hself := objLookup_objSet_self f k v
  unfold objLookup at hself
  rw [List.any_eq_true]
  cases hf : (objSet f k v).find? (fun kv => kv.1 == k) with
  | none => rw [hf] at hself; exact Option.noConfusion hself
  | some kv =>
    have hp := List.find?_some hf
    exact ⟨kv, List.mem_of_find?_eq_some hf, hp⟩

theorem objSet_eq_self (g : List (String × JVal)) (k : String) (v : JVal)
    (hall : ∀ kv ∈ g, kv.1 = k → kv = (k, v))
    (hex : g.any (fun kv => kv.1 == k) = true) :
    objSet g k v = g := by
  unfold objSet
  rw [if_pos hex]
  have : g.map (fun kv => if kv.1 == k then (k, v) else kv) = g.map id := by
    apply List.map_congr_left
    intro kv hkv
    by_cases hk : kv.1 == k
    · rw [if_pos hk]
      exact (hall kv hkv (by simpa using hk)).symm
    · rw [if_neg hk]
      rfl
  rw [this, List.map_id]

theorem objSet_idem (f : List (String × JVal)) (k : String) (v : JVal) :
    objSet (objSet f k v) k v = objSet f k v :=
  objSet_eq_self (objSet f k v) k v (objSet_mem_key f k v)
    (objSet_any_key f k v)

theorem migrateStep3to4_idem (homeBannerMedia : List BannerMedia)
    (DEFAULT_HOME_BANNER_FILE_NAME : String) (st : Store) :
    migrateStep3to4 homeBannerMedia DEFAULT_HOME_BANNER_FILE_NAME
        (migrateStep3to4 homeBannerMedia DEFAULT_HOME_BANNER_FILE_NAME st)
      = migrateStep3to4 homeBannerMedia DEFAULT_HOME_BANNER_FILE_NAME st := by
  unfold migrateStep3to4
  by_cases h : mediaIdNeedsDerivation st.homeBannerMediaId = true
  · rw [if_pos h]
    by_cases h2 : mediaIdNeedsDerivation
        (some (derivedMediaId homeBannerMedia DEFAULT_HOME_BANNER_FILE_NAME
          st.homeBannerCustomMedia st.homeBannerIndex)) = true
    · rw [if_pos h2]
    · rw [if_neg h2]
  · rw [if_neg h, if_neg h]

theorem getField_jobj (f : List (String × JVal)) (k : String) :
    (JVal.jobj f).getField k = objLookup f k := rfl

theorem migrateBackground_idem (homeBannerMedia : List BannerMedia)
    (bg : Option JVal) :
    migrateBackground homeBannerMedia (migrateBackground homeBannerMedia bg)
      = migrateBackground homeBannerMedia bg := by
  cases bg with
  | none => rfl
  | some v =>
    by_cases hc : (v.truthy && v.isObjectType && !bgTruthyMediaId v
        && (bgNumericIndex v).isSome) = true
    · cases hv : v with
      | jobj fields =>
        rw [← hv]
        cases hi : bgNumericIndex v with
        | none =>
          rw [hi] at hc
          simp at hc
        | some i =>
          have h1 : migrateBackground homeBannerMedia (some v)
              = (match (if i < 0 then none
                  else homeBannerMedia.get? i.toNat) with
                | some media =>
                  some (.jobj (objSet fields "mediaId" (.jstr media.fileName)))
                | none => some v) := by
            unfold migrateBackground
            dsimp only
            rw [if_pos hc, hi]
            simp only [Option.getD_some]
            cases (if i < 0 then none else homeBannerMedia.get? i.toNat) with
            | none => rfl
            | some media => rw [hv]
          cases hres : (if i < 0 then none
              else homeBannerMedia.get? i.toNat) with
          | none =>
            rw [hres] at h1
            dsimp only at h1
            rw [h1, h1]
          | some media =>
            rw [hres] at h1
            dsimp only at h1
            rw [h1]
            by_cases hmid : bgTruthyMediaId
                (.jobj (objSet fields "mediaId" (.jstr media.fileName))) = true
            · unfold migrateBackground
              dsimp only
              rw [if_neg (by simp [hmid])]
            · have hidx2 : bgNumericIndex
                  (.jobj (objSet fields "mediaId" (.jstr media.fileName)))
                  = some i := by
                unfold bgNumericIndex at hi ⊢
                rw [getField_jobj,
                  objLookup_objSet_ne fields "mediaId" "index"
                    (.jstr media.fileName) (by decide)]
                rw [hv] at hi
                exact hi
              unfold migrateBackground
              dsimp only
              rw [if_pos (by
                simp only [hmid, hidx2, Option.isSome_some, Bool.not_false,
                  Bool.and_true]
                rfl), hidx2]
              simp only [Option.getD_some]
              rw [hres]
              dsimp only
              rw [objSet_idem]
      | jnull => rw [hv] at hc; simp [JVal.truthy] at hc
      | jbool b => rw [hv] at hc; simp [JVal.isObjectType] at hc
      | jnum n => rw [hv] at hc; simp [JVal.isObjectType] at hc
      | jstr s => rw [hv] at hc; simp [JVal.isObjectType] at hc
      | jarr xs =>
        rw [hv] at hc
        have : bgNumericIndex (.jarr xs) = none := rfl
        rw [this] at hc
        simp at hc
    · have h1 : migrateBackground homeBannerMedia (some v) = some v := by
        unfold migrateBackground
        dsimp only
        rw [if_neg hc]
      rw [h1, h1]

theorem migrateStep4to5_idem (homeBannerMedia : List BannerMedia)
    (st : Store) :
    migrateStep4to5 homeBannerMedia (migrateStep4to5 homeBannerMedia st)
      = migrateStep4to5 homeBannerMedia st := by
  unfold migrateStep4to5
  simp only [migrateBackground_idem]

/-! Key analysis for the 2→3 position rewrite. -/

theorem digit_not_whitespace (c : Char) (h : c.isDigit = true) :
    c.isWhitespace = false := by
  unfold Char.isWhitespace
  simp only [Bool.or_eq_false_iff, decide_eq_false_iff_not]
  refine ⟨⟨⟨?_, ?_⟩, ?_⟩, ?_⟩ <;>
    (intro hx; subst hx; exact absurd h (by decide))

theorem parseInt10_of_numericKey (k : String)
    (h : numericKeyTest k = true) : ∃ n : Nat, parseInt10 k = some n := by
  unfold numericKeyTest at h
  rw [Bool.and_eq_true] at h
  obtain ⟨hlen, hdig⟩ := h
  rw [decide_eq_true_eq] at hlen
  have hdig' : ∀ x ∈ k.toList, x.isDigit = true := by
    intro x hx
    rw [List.all_eq_true] at hdig
    exact hdig x hx
  obtain ⟨c, rest, hk⟩ : ∃ c rest, k.toList = c :: rest := by
    cases hck : k.toList with
    | nil =>
      exfalso
      have hkl : k.length = k.toList.length := rfl
      rw [hck] at hkl
      simp at hkl
      omega
    | cons c rest => exact ⟨c, rest, rfl⟩
  have hcdig : c.isDigit = true := hdig' c (hk ▸ List.mem_cons_self c rest)
  have hcm : ¬(c = '-') := fun hx => absurd hcdig (by subst hx; decide)
  have hcp : ¬(c = '+') := fun hx => absurd hcdig (by subst hx; decide)
  have htake : (c :: rest).takeWhile Char.isDigit = c :: rest :=
    List.takeWhile_eq_self_iff.mpr (fun x hx => hdig' x (hk ▸ hx))
  have hparse : parseDigits (c :: rest)
      = some ((c :: rest).foldl (fun a c => a * 10 + (c.toNat - 48)) 0) := by
    unfold parseDigits
    rw [htake]
    rfl
  refine ⟨(c :: rest).foldl (fun a c => a * 10 + (c.toNat - 48)) 0, ?_⟩
  unfold parseInt10
  rw [hk, List.dropWhile_cons, digit_not_whitespace c hcdig]
  simp only [Bool.false_eq_true, if_false]
  rw [if_neg hcm, if_neg hcp, hparse]
  rfl

theorem objSet_keys (f : List (String × JVal)) (k : String) (v : JVal) :
    ∀ k' ∈ (objSet f k v).map Prod.fst, k' ∈ f.map Prod.fst ∨ k' = k := by
  intro k' hk'
  unfold objSet at hk'
  by_cases h : f.any (fun kv => kv.1 == k)
  · rw [if_pos h] at hk'
    rcases List.mem_map.mp hk' with ⟨kv, hkv, heq⟩
    rcases List.mem_map.mp hkv with ⟨orig, ho, heq2⟩
    by_cases hko : orig.1 == k
    · rw [if_pos hko] at heq2
      right
      rw [← heq, ← heq2]
    · rw [if_neg hko] at heq2
      left
      rw [← heq, ← heq2]
      exact List.mem_map.mpr ⟨orig, ho, rfl⟩
  · rw [if_neg h, List.map_append, List.mem_append] at hk'
    rcases hk' with hk' | hk'
    · exact Or.inl hk'
    · right
      simpa using hk'

theorem migratePositionsLoop_keys (homeBannerMedia : List BannerMedia)
    (migratedCustom : List JVal)
    (H1 : ∀ m ∈ homeBannerMedia, numericKeyTest m.fileName = false)
    (Hmc : ∀ v ∈ migratedCustom,
      numericKeyTest (jsPropKey (v.getField "id")) = false) :
    ∀ (fields acc out : List (String × JVal)),
      migratePositionsLoop homeBannerMedia migratedCustom acc fields
        = some out →
      (∀ k ∈ acc.map Prod.fst, numericKeyTest k = false) →
      ∀ k ∈ out.map Prod.fst, numericKeyTest k = false := by
  intro fields
  induction fields with
  | nil =>
    intro acc out hloop hacc
    unfold migratePositionsLoop at hloop
    injection hloop with hloop
    subst hloop
    exact hacc
  | cons kv rest ih =>
    intro acc out hloop hacc
    obtain ⟨key, position⟩ := kv
    unfold migratePositionsLoop at hloop
    by_cases hobj : (position.truthy && position.isObjectType) = true
    · rw [hobj] at hloop
      simp only [Bool.not_true, Bool.false_eq_true, if_false] at hloop
      cases hp : parseInt10 key with
      | none =>
        rw [hp] at hloop
        dsimp only at hloop
        refine ih (objSet acc key position) out hloop ?_
        intro k hk
        rcases objSet_keys acc key position k hk with hk' | hk'
        · exact hacc k hk'
        · subst hk'
          by_contra hnum
          rw [Bool.not_eq_false] at hnum
          obtain ⟨n, hn⟩ := parseInt10_of_numericKey k hnum
          rw [hn] at hp
          exact Option.noConfusion hp
      | some index =>
        rw [hp] at hloop
        dsimp only at hloop
        by_cases hlt : index < (migratedCustom.length : Int)
        · rw [if_pos hlt] at hloop
          cases hg : jsGet migratedCustom index with
          | none => rw [hg] at hloop; exact Option.noConfusion hloop
          | some entry =>
            rw [hg] at hloop
            have hmem : entry ∈ migratedCustom := by
              unfold jsGet at hg
              split at hg
              · exact Option.noConfusion hg
              · exact List.get?_mem hg
            have hkey : ∀ hloop' : migratePositionsLoop homeBannerMedia
                migratedCustom
                (objSet acc (jsPropKey (entry.getField "id"))
                  (validPositionOf position)) rest = some out,
                ∀ k ∈ out.map Prod.fst, numericKeyTest k = false := by
              intro hloop'
              refine ih _ out hloop' ?_
              intro k hk
              rcases objSet_keys acc _ _ k hk with hk' | hk'
              · exact hacc k hk'
              · subst hk'
                exact Hmc entry hmem
            cases entry with
            | jnull => exact Option.noConfusion hloop
            | jbool b => exact hkey hloop
            | jnum n => exact hkey hloop
            | jstr s => exact hkey hloop
            | jarr xs => exact hkey hloop
            | jobj f => exact hkey hloop
        · rw [if_neg hlt] at hloop
          by_cases hbr : (0 ≤ index - (migratedCustom.length : Int) ∧
              index - (migratedCustom.length : Int) <
                (homeBannerMedia.length : Int))
          · rw [if_pos hbr] at hloop
            cases hm : homeBannerMedia.get?
                (index - (migratedCustom.length : Int)).toNat with
            | none =>
              rw [hm] at hloop
              exact ih acc out hloop hacc
            | some media =>
              rw [hm] at hloop
              refine ih _ out hloop ?_
              intro k hk
              rcases objSet_keys acc _ _ k hk with hk' | hk'
              · exact hacc k hk'
              · subst hk'
                exact H1 media (List.get?_mem hm)
          · rw [if_neg hbr] at hloop
            exact ih acc out hloop hacc
    · rw [Bool.not_eq_true] at hobj
      rw [hobj] at hloop
      simp only [Bool.not_false, if_true] at hloop
      exact ih acc out hloop hacc

theorem computeMigratedCustom_ids (genId : Nat → String) (cm : Option JVal)
    (H2 : ∀ i, numericKeyTest (genId i) = false)
    (H3 : ∀ v ∈ storedCustomElems cm,
      numericKeyTest (jsPropKey (v.getField "id")) = false) :
    ∀ v ∈ (computeMigratedCustom genId cm).1,
      numericKeyTest (jsPropKey (v.getField "id")) = false := by
  intro v hv
  unfold computeMigratedCustom at hv
  cases cm with
  | none => simp at hv
  | some w =>
    cases w with
    | jarr xs =>
      cases xs with
      | nil => simp at hv
      | cons head tail =>
        cases head with
        | jstr s =>
          dsimp only at hv
          unfold convertLegacyCustomMedia at hv
          rcases List.mem_map.mp hv with ⟨p, hp, heq⟩
          subst heq
          have hid : (JVal.jobj [("path", p.2), ("id", .jstr (genId p.1))]).getField "id"
              = some (.jstr (genId p.1)) := by
            simp [JVal.getField, List.find?_cons]
          rw [hid]
          exact H2 p.1
        | jnull => exact H3 v hv
        | jbool b => exact H3 v hv
        | jnum n => exact H3 v hv
        | jarr ys => exact H3 v hv
        | jobj f => exact H3 v hv
    | jnull => simp at hv
    | jbool b => simp at hv
    | jnum n => simp at hv
    | jstr s => simp at hv
    | jobj f => simp at hv

theorem computeMigratedCustom_convert (genId : Nat → String)
    (xs : List JVal) (h : xs ≠ []) :
    computeMigratedCustom genId
        (some (.jarr (convertLegacyCustomMedia genId xs)))
      = (convertLegacyCustomMedia genId xs, false) := by
  cases xs with
  | nil => exact absurd rfl h
  | cons v tail =>
    unfold convertLegacyCustomMedia
    rw [List.enum_cons]
    dsimp only [List.map_cons]
    rfl

theorem customAfter_stable (genId : Nat → String) (cm : Option JVal) :
    computeMigratedCustom genId (customAfter genId cm)
      = ((computeMigratedCustom genId cm).1, false) := by
  by_cases hflag : (computeMigratedCustom genId cm).2 = true
  · have h1 : customAfter genId cm
        = some (.jarr (computeMigratedCustom genId cm).1) := by
      unfold customAfter
      dsimp only
      rw [hflag]
      simp
    rw [h1]
    cases hcm : cm with
    | none => rw [hcm] at hflag; exact Bool.noConfusion hflag
    | some w =>
      cases w with
      | jarr xs =>
        cases xs with
        | nil => rw [hcm] at hflag; exact Bool.noConfusion hflag
        | cons head tail =>
          cases head with
          | jstr s =>
            have h2 : computeMigratedCustom genId
                (some (JVal.jarr (JVal.jstr s :: tail)))
                = (convertLegacyCustomMedia genId (.jstr s :: tail), true) :=
              rfl
            rw [h2]
            exact computeMigratedCustom_convert genId (.jstr s :: tail)
              (by simp)
          | jnull => rw [hcm] at hflag; exact Bool.noConfusion hflag
          | jbool b => rw [hcm] at hflag; exact Bool.noConfusion hflag
          | jnum n => rw [hcm] at hflag; exact Bool.noConfusion hflag
          | jarr ys => rw [hcm] at hflag; exact Bool.noConfusion hflag
          | jobj f => rw [hcm] at hflag; exact Bool.noConfusion hflag
      | jnull => rw [hcm] at hflag; exact Bool.noConfusion hflag
      | jbool b => rw [hcm] at hflag; exact Bool.noConfusion hflag
      | jnum n => rw [hcm] at hflag; exact Bool.noConfusion hflag
      | jstr s => rw [hcm] at hflag; exact Bool.noConfusion hflag
      | jobj f => rw [hcm] at hflag; exact Bool.noConfusion hflag
  · have h1 : customAfter genId cm = cm := by
      unfold customAfter
      dsimp only
      rw [if_neg hflag]
    rw [h1, Prod.ext_iff]
    exact ⟨rfl, by simpa using hflag⟩

theorem customAfter_idem (genId : Nat → String) (cm : Option JVal) :
    customAfter genId (customAfter genId cm) = customAfter genId cm := by
  have h2 := customAfter_stable genId cm
  by_cases hflag : (computeMigratedCustom genId cm).2 = true
  · have h1 : customAfter genId cm
        = some (.jarr (computeMigratedCustom genId cm).1) := by
      unfold customAfter
      dsimp only
      rw [hflag]
      simp
    rw [h1] at h2
    rw [h1]
    unfold customAfter
    dsimp only
    rw [h2]
    simp
  · have h1 : customAfter genId cm = cm := by
      unfold customAfter
      dsimp only
      rw [if_neg hflag]
    rw [h1]
    exact h1

theorem migrateStep2to3_posNone (homeBannerMedia : List BannerMedia)
    (genId : Nat → String) (st : Store)
    (h : st.homeBannerPositions = none) :
    migrateStep2to3 homeBannerMedia genId st
      = (false, { st with
          homeBannerCustomMedia := customAfter genId
            st.homeBannerCustomMedia }) := by
  unfold migrateStep2to3
  dsimp only
  rw [h]

theorem migrateStep2to3_posFalsy (homeBannerMedia : List BannerMedia)
    (genId : Nat → String) (st : Store) (pv : JVal)
    (h : st.homeBannerPositions = some pv) (ht : pv.truthy = false) :
    migrateStep2to3 homeBannerMedia genId st
      = (false, { st with
          homeBannerCustomMedia := customAfter genId
            st.homeBannerCustomMedia }) := by
  unfold migrateStep2to3
  dsimp only
  rw [h]
  try dsimp only
  rw [ht]
  rfl

theorem migrateStep2to3_noEntries (homeBannerMedia : List BannerMedia)
    (genId : Nat → String) (st : Store) (pv : JVal)
    (h : st.homeBannerPositions = some pv) (ht : pv.truthy = true)
    (he : entriesOf pv = none) :
    migrateStep2to3 homeBannerMedia genId st
      = (false, { st with
          homeBannerCustomMedia := customAfter genId
            st.homeBannerCustomMedia }) := by
  unfold migrateStep2to3
  dsimp only
  rw [h]
  try dsimp only
  rw [ht]
  try dsimp only
  rw [he]
  rfl

theorem migrateStep2to3_noNumeric (homeBannerMedia : List BannerMedia)
    (genId : Nat → String) (st : Store) (pv : JVal)
    (fields : List (String × JVal))
    (h : st.homeBannerPositions = some pv) (ht : pv.truthy = true)
    (he : entriesOf pv = some fields)
    (hn : fields.any (fun kv => numericKeyTest kv.1) = false) :
    migrateStep2to3 homeBannerMedia genId st
      = (false, { st with
          homeBannerCustomMedia := customAfter genId
            st.homeBannerCustomMedia }) := by
  unfold migrateStep2to3
  dsimp only
  rw [h]
  try dsimp only
  rw [ht]
  try dsimp only
  rw [he]
  try dsimp only
  rw [hn]
  rfl

theorem migrateStep2to3_loopCase (homeBannerMedia : List BannerMedia)
    (genId : Nat → String) (st : Store) (pv : JVal)
    (fields : List (String × JVal))
    (h : st.homeBannerPositions = some pv) (ht : pv.truthy = true)
    (he : entriesOf pv = some fields)
    (hn : fields.any (fun kv => numericKeyTest kv.1) = true) :
    migrateStep2to3 homeBannerMedia genId st
      = (match migratePositionsLoop homeBannerMedia
          (computeMigratedCustom genId st.homeBannerCustomMedia).1 []
          fields with
        | some migratedPositions =>
          (false, { st with
            homeBannerCustomMedia := customAfter genId
              st.homeBannerCustomMedia,
            homeBannerPositions := some (.jobj migratedPositions) })
        | none =>
          (true, { st with
            homeBannerCustomMedia := customAfter genId
              st.homeBannerCustomMedia })) := by
  unfold migrateStep2to3
  dsimp only
  rw [h]
  try dsimp only
  rw [ht]
  try dsimp only
  rw [he]
  try dsimp only
  rw [hn]
  rfl

theorem migrateStep2to3_idem (homeBannerMedia : List BannerMedia)
    (genId : Nat → String) (st : Store)
    (H1 : ∀ m ∈ homeBannerMedia, numericKeyTest m.fileName = false)
    (H2 : ∀ i, numericKeyTest (genId i) = false)
    (H3 : ∀ v ∈ storedCustomElems st.homeBannerCustomMedia,
      numericKeyTest (jsPropKey (v.getField "id")) = false) :
    (migrateStep2to3 homeBannerMedia genId
        (migrateStep2to3 homeBannerMedia genId st).2).2
      = (migrateStep2to3 homeBannerMedia genId st).2 := by
  have Hmc : ∀ v ∈ (computeMigratedCustom genId st.homeBannerCustomMedia).1,
      numericKeyTest (jsPropKey (v.getField "id")) = false :=
    computeMigratedCustom_ids genId st.homeBannerCustomMedia H2 H3
  have hstable := customAfter_stable genId st.homeBannerCustomMedia
  have hidem := customAfter_idem genId st.homeBannerCustomMedia
  cases hpos : st.homeBannerPositions with
  | none =>
    rw [migrateStep2to3_posNone homeBannerMedia genId st hpos]
    dsimp only
    rw [migrateStep2to3_posNone homeBannerMedia genId
      { st with
        homeBannerCustomMedia := customAfter genId st.homeBannerCustomMedia }
      hpos]
    dsimp only
    rw [hidem]
  | some pv =>
    by_cases ht : pv.truthy = true
    · cases he : entriesOf pv with
      | none =>
        rw [migrateStep2to3_noEntries homeBannerMedia genId st pv hpos ht he]
        dsimp only
        rw [migrateStep2to3_noEntries homeBannerMedia genId
          { st with
            homeBannerCustomMedia := customAfter genId
              st.homeBannerCustomMedia } pv hpos ht he]
        dsimp only
        rw [hidem]
      | some fields =>
        by_cases hn : fields.any (fun kv => numericKeyTest kv.1) = true
        · rw [migrateStep2to3_loopCase homeBannerMedia genId st pv fields
            hpos ht he hn]
          cases hloop : migratePositionsLoop homeBannerMedia
              (computeMigratedCustom genId st.homeBannerCustomMedia).1 []
              fields with
          | some mp =>
            dsimp only
            have hkeys : ∀ k ∈ mp.map Prod.fst, numericKeyTest k = false :=
              migratePositionsLoop_keys homeBannerMedia _ H1 Hmc fields []
                mp hloop (by simp)
            have hnone : mp.any (fun kv => numericKeyTest kv.1) = false := by
              rw [← Bool.not_eq_true, List.any_eq_true]
              rintro ⟨kv, hkv, hpk⟩
              have := hkeys kv.1 (List.mem_map.mpr ⟨kv, hkv, rfl⟩)
              rw [this] at hpk
              exact Bool.noConfusion hpk
            rw [migrateStep2to3_noNumeric homeBannerMedia genId
              { st with
                homeBannerCustomMedia := customAfter genId
                  st.homeBannerCustomMedia,
                homeBannerPositions := some (.jobj mp) }
              (.jobj mp) mp rfl rfl rfl hnone]
            dsimp only
            rw [hidem]
          | none =>
            dsimp only
            rw [migrateStep2to3_loopCase homeBannerMedia genId
              { st with
                homeBannerCustomMedia := customAfter genId
                  st.homeBannerCustomMedia } pv fields hpos ht he hn]
            dsimp only
            rw [hstable]
            dsimp only
            rw [hloop, hidem]
        · rw [Bool.not_eq_true] at hn
          rw [migrateStep2to3_noNumeric homeBannerMedia genId st pv fields
            hpos ht he hn]
          dsimp only
          rw [migrateStep2to3_noNumeric homeBannerMedia genId
            { st with
              homeBannerCustomMedia := customAfter genId
                st.homeBannerCustomMedia } pv fields hpos ht he hn]
          dsimp only
          rw [hidem]
    · rw [Bool.not_eq_true] at ht
      rw [migrateStep2to3_posFalsy homeBannerMedia genId st pv hpos ht]
      dsimp only
      rw [migrateStep2to3_posFalsy homeBannerMedia genId
        { st with
          homeBannerCustomMedia := customAfter genId
            st.homeBannerCustomMedia } pv hpos ht]
      dsimp only
      rw [hidem]

/-- C1 (amended): applying `migrateUserSettingsStep` for the pair
`(N, N+1)`, `N ≤ 4`, twice in sequence leaves the store of the first
application unchanged, provided — needed only for the 2→3 step — that
no builtin file name, no generated id, and no stored custom entry's id
(as a property key) consists solely of decimal digits.  (Without that
proviso the 2→3 position rewrite can re-trigger on its own output; see
the counterexample.) -/
theorem migrateUserSettingsStep_idempotent
    (homeBannerMedia : List BannerMedia)
    (DEFAULT_HOME_BANNER_FILE_NAME : String) (genId : Nat → String)
    (n : Nat) (st : Store) (hn : n ≤ 4)
    (H1 : ∀ m ∈ homeBannerMedia, numericKeyTest m.fileName = false)
    (H2 : ∀ i, numericKeyTest (genId i) = false)
    (H3 : ∀ v ∈ storedCustomElems st.homeBannerCustomMedia,
      numericKeyTest (jsPropKey (v.getField "id")) = false) :
    (migrateUserSettingsStep homeBannerMedia DEFAULT_HOME_BANNER_FILE_NAME
        genId n (n + 1)
        (migrateUserSettingsStep homeBannerMedia
          DEFAULT_HOME_BANNER_FILE_NAME genId n (n + 1) st).2).2
      = (migrateUserSettingsStep homeBannerMedia
          DEFAULT_HOME_BANNER_FILE_NAME genId n (n + 1) st).2 := by
  interval_cases n
  · rfl
  · show migrateStep1to2 (migrateStep1to2 st) = migrateStep1to2 st
    exact migrateStep1to2_idem st
  · have hw : ∀ s : Store,
        (migrateUserSettingsStep homeBannerMedia
          DEFAULT_HOME_BANNER_FILE_NAME genId 2 3 s).2
          = (migrateStep2to3 homeBannerMedia genId s).2 := by
      intro s
      have heq : migrateUserSettingsStep homeBannerMedia
          DEFAULT_HOME_BANNER_FILE_NAME genId 2 3 s
          = (if (migrateStep2to3 homeBannerMedia genId s).1 then
              migrateStep2to3 homeBannerMedia genId s
            else (false, (migrateStep2to3 homeBannerMedia genId s).2)) := rfl
      rw [heq]
      by_cases hb : (migrateStep2to3 homeBannerMedia genId s).1 = true
      · rw [if_pos hb]
      · rw [if_neg hb]
    rw [hw, hw]
    exact migrateStep2to3_idem homeBannerMedia genId st H1 H2 H3
  · show migrateStep3to4 homeBannerMedia DEFAULT_HOME_BANNER_FILE_NAME
        (migrateStep3to4 homeBannerMedia DEFAULT_HOME_BANNER_FILE_NAME st)
      = migrateStep3to4 homeBannerMedia DEFAULT_HOME_BANNER_FILE_NAME st
    exact migrateStep3to4_idem homeBannerMedia DEFAULT_HOME_BANNER_FILE_NAME st
  · show migrateStep4to5 homeBannerMedia (migrateStep4to5 homeBannerMedia st)
      = migrateStep4to5 homeBannerMedia st
    exact migrateStep4to5_idem homeBannerMedia st

/-- Counterexample to C1 as stated: a store whose custom entry carries
the all-digit id `"99999999"` (a value `generateShortId` can produce).
The first 2→3 application relocates the position record at key "0" to
key "99999999"; the second application sees that key as a legacy
numeric index again and drops the record, so applying the step twice
differs from applying it once. -/
theorem migrateUserSettingsStep_not_idempotent_cex :
    (migrateUserSettingsStep [⟨"builtin1.jpg", "Builtin 1", .image⟩]
        "builtin1.jpg" (fun _ => "aaaabbbb") 2 3
        (migrateUserSettingsStep [⟨"builtin1.jpg", "Builtin 1", .image⟩]
          "builtin1.jpg" (fun _ => "aaaabbbb") 2 3
          { homeBannerCustomMedia := some (.jarr
              [.jobj [("path", .jstr "/a.jpg"), ("id", .jstr "99999999")]]),
            homeBannerPositions := some (.jobj [("0", .jobj
              [("positionX", .jnum 10), ("positionY", .jnum 20),
                ("zoom", .jnum 100)])]) }).2).2
      ≠ (migrateUserSettingsStep [⟨"builtin1.jpg", "Builtin 1", .image⟩]
          "builtin1.jpg" (fun _ => "aaaabbbb") 2 3
          { homeBannerCustomMedia := some (.jarr
              [.jobj [("path", .jstr "/a.jpg"), ("id", .jstr "99999999")]]),
            homeBannerPositions := some (.jobj [("0", .jobj
              [("positionX", .jnum 10), ("positionY", .jnum 20),
                ("zoom", .jnum 100)])]) }).2 := by
  decide

/-- Witness for C1 (amended) on the spec's Scenario A store at step
2→3, with non-numeric generated ids. -/
theorem migrateUserSettingsStep_idempotent_witness :
    (migrateUserSettingsStep [⟨"builtin1.jpg", "Builtin 1", .image⟩]
        "builtin1.jpg" (fun _ => "aaaabbbb") 2 3
        (migrateUserSettingsStep [⟨"builtin1.jpg", "Builtin 1", .image⟩]
          "builtin1.jpg" (fun _ => "aaaabbbb") 2 3
          { homeBannerCustomMedia := some (.jarr
              [.jstr "/a.jpg", .jstr "/b.jpg"]),
            homeBannerPositions := some (.jobj
              [("0", .jobj [("positionX", .jnum 10), ("positionY", .jnum 20),
                ("zoom", .jnum 100)]),
               ("2", .jobj [("positionX", .jnum 50), ("positionY", .jnum 50),
                ("zoom", .jnum 100)])]) }).2).2
      = (migrateUserSettingsStep [⟨"builtin1.jpg", "Builtin 1", .image⟩]
          "builtin1.jpg" (fun _ => "aaaabbbb") 2 3
          { homeBannerCustomMedia := some (.jarr
              [.jstr "/a.jpg", .jstr "/b.jpg"]),
            homeBannerPositions := some (.jobj
              [("0", .jobj [("positionX", .jnum 10), ("positionY", .jnum 20),
                ("zoom", .jnum 100)]),
               ("2", .jobj [("positionX", .jnum 50), ("positionY", .jnum 50),
                ("zoom", .jnum 100)])]) }).2 := by
  exact migrateUserSettingsStep_idempotent
    [⟨"builtin1.jpg", "Builtin 1", .image⟩] "builtin1.jpg"
    (fun _ => "aaaabbbb") 2
    { homeBannerCustomMedia := some (.jarr
        [.jstr "/a.jpg", .jstr "/b.jpg"]),
      homeBannerPositions := some (.jobj
        [("0", .jobj [("positionX", .jnum 10), ("positionY", .jnum 20),
          ("zoom", .jnum 100)]),
         ("2", .jobj [("positionX", .jnum 50), ("positionY", .jnum 50),
          ("zoom", .jnum 100)])]) }
    (by decide) (by decide) (fun i => by show numericKeyTest "aaaabbbb" = false; decide) (by decide)

/-- Entry-wise description of the 2→3 position-map rewrite, with `ids`
the (string) ids of the migrated custom entries: non-object values are
dropped; keys without a parsable leading integer pass through
verbatim; parsed indices relocate the normalized value to the i-th
custom id or the builtin file name at the offset, and are dropped when
the offset leaves the manifest. -/
def rewrittenPositions (homeBannerMedia : List BannerMedia)
    (ids : List String) (fields : List (String × JVal)) :
    List (String × JVal) :=
  fields.filterMap (fun kv =>
    if kv.2.truthy && kv.2.isObjectType then
      match parseInt10 kv.1 with
      | none => some (kv.1, kv.2)
      | some i =>
        if i < (ids.length : Int) then
          (ids.get? i.toNat).map (fun id => (id, validPositionOf kv.2))
        else
          (homeBannerMedia.get? (i - ids.length).toNat).map
            (fun m => (m.fileName, validPositionOf kv.2))
    else none)

theorem objSet_append_of_not_mem (acc : List (String × JVal)) (k : String)
    (v : JVal) (h : k ∉ acc.map Prod.fst) :
    objSet acc k v = acc ++ [(k, v)] := by
  unfold objSet
  rw [if_neg ?hne]
  case hne =>
    intro hx
    rcases List.any_eq_true.mp hx with ⟨kv, hkv, hpk⟩
    exact h (List.mem_map.mpr ⟨kv, hkv, by simpa using hpk⟩)

theorem nodup_shift (acc : List (String × JVal)) (p : String × JVal)
    (rest : List (String × JVal))
    (h : ((acc ++ p :: rest).map Prod.fst).Nodup) :
    (((acc ++ [p]) ++ rest).map Prod.fst).Nodup := by
  rw [List.append_assoc]
  simpa using h

theorem key_notin_of_nodup (acc : List (String × JVal)) (p : String × JVal)
    (rest : List (String × JVal))
    (h : ((acc ++ p :: rest).map Prod.fst).Nodup) :
    p.1 ∉ acc.map Prod.fst := by
  rw [List.map_append, List.nodup_append] at h
  intro hx
  exact h.2.2 hx (by simp)

theorem migratePositionsLoop_eq (homeBannerMedia : List BannerMedia)
    (mc : List JVal) (ids : List String)
    (hids : mc.map (fun e => e.getField "id")
      = ids.map (fun s => some (.jstr s))) :
    ∀ (fields acc : List (String × JVal)),
      (∀ kv ∈ fields, (kv.2.truthy && kv.2.isObjectType) = true →
        ∀ i : Int, parseInt10 kv.1 = some i → 0 ≤ i) →
      ((acc ++ rewrittenPositions homeBannerMedia ids fields).map
        Prod.fst).Nodup →
      migratePositionsLoop homeBannerMedia mc acc fields
        = some (acc ++ rewrittenPositions homeBannerMedia ids fields) := by
  have hlen : mc.length = ids.length := by
    have := congrArg List.length hids
    simpa using this
  intro fields
  induction fields with
  | nil =>
    intro acc h0 hnd
    unfold migratePositionsLoop rewrittenPositions
    simp
  | cons kv rest ih =>
    intro acc h0 hnd
    obtain ⟨k, v⟩ := kv
    have h0rest : ∀ kv ∈ rest, (kv.2.truthy && kv.2.isObjectType) = true →
        ∀ i : Int, parseInt10 kv.1 = some i → 0 ≤ i :=
      fun kv hkv => h0 kv (List.mem_cons_of_mem _ hkv)
    unfold migratePositionsLoop
    by_cases hobj : (v.truthy && v.isObjectType) = true
    · rw [hobj]
      simp only [Bool.not_true, Bool.false_eq_true, if_false]
      cases hp : parseInt10 k with
      | none =>
        have hrw : rewrittenPositions homeBannerMedia ids ((k, v) :: rest)
            = (k, v) :: rewrittenPositions homeBannerMedia ids rest := by
          unfold rewrittenPositions
          rw [List.filterMap_cons]
          dsimp only
          rw [hobj]
          simp only [if_true]
          rw [hp]
        rw [hrw] at hnd ⊢
        dsimp only
        rw [objSet_append_of_not_mem acc k v
          (key_notin_of_nodup acc (k, v) _ hnd)]
        rw [ih (acc ++ [(k, v)]) h0rest (nodup_shift acc (k, v) _ hnd)]
        rw [List.append_assoc]
        rfl
      | some i =>
        have h0i : (0 : Int) ≤ i :=
          h0 (k, v) (List.mem_cons_self _ _) hobj i hp
        dsimp only
        by_cases hlt : i < (mc.length : Int)
        · rw [if_pos hlt]
          have hin : i.toNat < mc.length := by omega
          have hin' : i.toNat < ids.length := by omega
          have he : mc.get? i.toNat = some (mc.get ⟨i.toNat, hin⟩) :=
            List.get?_eq_get hin
          have hid : ids.get? i.toNat = some (ids.get ⟨i.toNat, hin'⟩) :=
            List.get?_eq_get hin'
          have hmapi := congrArg (fun l => l.get? i.toNat) hids
          simp only [List.get?_map, he, hid, Option.map_some] at hmapi
          have hfield : (mc.get ⟨i.toNat, hin⟩).getField "id"
              = some (.jstr (ids.get ⟨i.toNat, hin'⟩)) := by
            injection hmapi
          have hjs : jsGet mc i = some (mc.get ⟨i.toNat, hin⟩) := by
            unfold jsGet
            rw [if_neg (by omega)]
            exact he
          rw [hjs]
          have hkey : jsPropKey ((mc.get ⟨i.toNat, hin⟩).getField "id")
              = ids.get ⟨i.toNat, hin'⟩ := by
            rw [hfield]
            rfl
          have hrw : rewrittenPositions homeBannerMedia ids ((k, v) :: rest)
              = (ids.get ⟨i.toNat, hin'⟩, validPositionOf v) ::
                rewrittenPositions homeBannerMedia ids rest := by
            unfold rewrittenPositions
            rw [List.filterMap_cons]
            dsimp only
            rw [hobj]
            simp only [if_true]
            rw [hp]
            dsimp only
            rw [if_pos (by omega), hid]
            rfl
          rw [hrw] at hnd ⊢
          cases hshape : mc.get ⟨i.toNat, hin⟩ with
          | jobj fs =>
            rw [hshape] at hkey
            dsimp only
            rw [hkey]
            rw [objSet_append_of_not_mem acc _ _
              (key_notin_of_nodup acc _ _ hnd)]
            rw [ih _ h0rest (nodup_shift acc _ _ hnd)]
            rw [List.append_assoc]
            rfl
          | jnull => rw [hshape] at hfield; exact Option.noConfusion hfield
          | jbool b => rw [hshape] at hfield; exact Option.noConfusion hfield
          | jnum n => rw [hshape] at hfield; exact Option.noConfusion hfield
          | jstr s => rw [hshape] at hfield; exact Option.noConfusion hfield
          | jarr xs => rw [hshape] at hfield; exact Option.noConfusion hfield
        · rw [if_neg hlt]
          by_cases hbi : i - (mc.length : Int) < (homeBannerMedia.length : Int)
          · rw [if_pos ⟨by omega, hbi⟩]
            have hin : (i - (mc.length : Int)).toNat
                < homeBannerMedia.length := by omega
            have hm : homeBannerMedia.get? (i - (mc.length : Int)).toNat
                = some (homeBannerMedia.get ⟨_, hin⟩) :=
              List.get?_eq_get hin
            rw [hm]
            dsimp only
            have hrw : rewrittenPositions homeBannerMedia ids ((k, v) :: rest)
                = ((homeBannerMedia.get ⟨(i - (mc.length : Int)).toNat,
                    hin⟩).fileName, validPositionOf v) ::
                  rewrittenPositions homeBannerMedia ids rest := by
              unfold rewrittenPositions
              rw [List.filterMap_cons]
              dsimp only
              rw [hobj]
              simp only [if_true]
              rw [hp]
              dsimp only
              rw [if_neg (by omega)]
              rw [show ((i - (ids.length : Int)).toNat)
                = ((i - (mc.length : Int)).toNat) by omega]
              rw [hm]
              rfl
            rw [hrw] at hnd ⊢
            rw [objSet_append_of_not_mem acc
              (homeBannerMedia.get ⟨(i - (mc.length : Int)).toNat,
                hin⟩).fileName
              (validPositionOf v) (key_notin_of_nodup acc _ _ hnd)]
            rw [ih _ h0rest (nodup_shift acc _ _ hnd)]
            rw [List.append_assoc]
            rfl
          · rw [if_neg (by intro hx; exact hbi hx.2)]
            have hrw : rewrittenPositions homeBannerMedia ids ((k, v) :: rest)
                = rewrittenPositions homeBannerMedia ids rest := by
              unfold rewrittenPositions
              rw [List.filterMap_cons]
              dsimp only
              rw [hobj]
              simp only [if_true]
              rw [hp]
              dsimp only
              rw [if_neg (by omega)]
              rw [List.get?_eq_getElem?, List.getElem?_eq_none (by omega)]
              rfl
            rw [hrw] at hnd ⊢
            exact ih acc h0rest hnd
    · rw [Bool.not_eq_true] at hobj
      rw [hobj]
      simp only [Bool.not_false, if_true]
      have hrw : rewrittenPositions homeBannerMedia ids ((k, v) :: rest)
          = rewrittenPositions homeBannerMedia ids rest := by
        unfold rewrittenPositions
        rw [List.filterMap_cons]
        dsimp only
        rw [hobj]
        rfl
      rw [hrw] at hnd ⊢
      exact ih acc h0rest hnd

/-- C2 (amended): when `homeBannerPositions` holds an object with some
all-digit key, the 2→3 step rewrites it to `rewrittenPositions`: keys
are classified by `parseInt` (not by `/^\d+$/`), so a key parses to an
index `i` whenever it has a leading integer; index `i` below the
custom count maps to the i-th custom entry's id, an index with offset
inside the manifest maps to that builtin's file name, other indices
are dropped; only keys with no parsable integer pass through, and only
with truthy object values (non-objects are dropped).  Hypotheses: the
migrated custom entries carry string ids `ids`; parsed indices are
non-negative (a negative one raises a `TypeError` in the source); the
produced keys are pairwise distinct (collisions would overwrite in
encounter order). -/
theorem migrateStep2to3_positions_rewrite
    (homeBannerMedia : List BannerMedia)
    (DEFAULT_HOME_BANNER_FILE_NAME : String) (genId : Nat → String)
    (st : Store) (fields : List (String × JVal)) (ids : List String)
    (hpos : st.homeBannerPositions = some (.jobj fields))
    (hnum : fields.any (fun kv => numericKeyTest kv.1) = true)
    (hids : (computeMigratedCustom genId st.homeBannerCustomMedia).1.map
        (fun e => e.getField "id") = ids.map (fun s => some (.jstr s)))
    (h0 : ∀ kv ∈ fields, (kv.2.truthy && kv.2.isObjectType) = true →
      ∀ i : Int, parseInt10 kv.1 = some i → 0 ≤ i)
    (hnodup : ((rewrittenPositions homeBannerMedia ids fields).map
      Prod.fst).Nodup) :
    migrateUserSettingsStep homeBannerMedia DEFAULT_HOME_BANNER_FILE_NAME
        genId 2 3 st
      = (false, { st with
          homeBannerCustomMedia := customAfter genId
            st.homeBannerCustomMedia,
          homeBannerPositions := some (.jobj
            (rewrittenPositions homeBannerMedia ids fields)) }) := by
  have hloop := migratePositionsLoop_eq homeBannerMedia
    (computeMigratedCustom genId st.homeBannerCustomMedia).1 ids hids
    fields [] h0 (by simpa using hnodup)
  have hcase := migrateStep2to3_loopCase homeBannerMedia genId st
    (.jobj fields) fields hpos rfl rfl hnum
  have heq : migrateUserSettingsStep homeBannerMedia
      DEFAULT_HOME_BANNER_FILE_NAME genId 2 3 st
      = (if (migrateStep2to3 homeBannerMedia genId st).1 then
          migrateStep2to3 homeBannerMedia genId st
        else (false, (migrateStep2to3 homeBannerMedia genId st).2)) := rfl
  rw [heq, hcase, hloop]
  simp

/-- Counterexample to C2 as stated: with one builtin and no custom
entries, the position map `{"5": p, "12abc": p}` triggers the rewrite
via "5"; the claim says the non-numeric key "12abc" (it does not match
`^\d+$`) passes through unchanged, but `parseInt` extracts 12 from it,
index 12 is out of range, and the entry is dropped: the migrated map
is empty. -/
theorem migrateStep2to3_nonNumericKey_dropped_cex :
    (migrateUserSettingsStep [⟨"builtin1.jpg", "Builtin 1", .image⟩]
        "builtin1.jpg" (fun _ => "aaaabbbb") 2 3
        { homeBannerPositions := some (.jobj
            [("5", .jobj [("positionX", .jnum 10), ("positionY", .jnum 20),
              ("zoom", .jnum 100)]),
             ("12abc", .jobj [("positionX", .jnum 10),
              ("positionY", .jnum 20),
              ("zoom", .jnum 100)])]) }).2.homeBannerPositions
      = some (.jobj []) := by
  decide

/-- Witness for C2 (amended): one custom entry with id "aaa0", one
builtin; key "0" relocates to "aaa0", key "x" passes through, key "7"
is dropped (offset 6 is outside the one-entry manifest). -/
theorem migrateStep2to3_positions_rewrite_witness :
    migrateUserSettingsStep [⟨"builtin1.jpg", "Builtin 1", .image⟩]
        "builtin1.jpg" (fun _ => "aaaabbbb") 2 3
        { homeBannerCustomMedia := some (.jarr
            [.jobj [("path", .jstr "/a.jpg"), ("id", .jstr "aaa0")]]),
          homeBannerPositions := some (.jobj
            [("0", .jobj [("positionX", .jnum 10), ("positionY", .jnum 20),
              ("zoom", .jnum 100)]),
             ("x", .jobj [("positionX", .jstr "oops")]),
             ("7", .jobj [("positionX", .jnum 1), ("positionY", .jnum 2),
              ("zoom", .jnum 3)])]) }
      = (false,
        { homeBannerCustomMedia := some (.jarr
            [.jobj [("path", .jstr "/a.jpg"), ("id", .jstr "aaa0")]]),
          homeBannerPositions := some (.jobj
            (rewrittenPositions [⟨"builtin1.jpg", "Builtin 1", .image⟩]
              ["aaa0"]
              [("0", .jobj [("positionX", .jnum 10), ("positionY", .jnum 20),
                ("zoom", .jnum 100)]),
               ("x", .jobj [("positionX", .jstr "oops")]),
               ("7", .jobj [("positionX", .jnum 1), ("positionY", .jnum 2),
                ("zoom", .jnum 3)])])) }) := by
  have h := migrateStep2to3_positions_rewrite
    [⟨"builtin1.jpg", "Builtin 1", .image⟩] "builtin1.jpg"
    (fun _ => "aaaabbbb")
    { homeBannerCustomMedia := some (.jarr
        [.jobj [("path", .jstr "/a.jpg"), ("id", .jstr "aaa0")]]),
      homeBannerPositions := some (.jobj
        [("0", .jobj [("positionX", .jnum 10), ("positionY", .jnum 20),
          ("zoom", .jnum 100)]),
         ("x", .jobj [("positionX", .jstr "oops")]),
         ("7", .jobj [("positionX", .jnum 1), ("positionY", .jnum 2),
          ("zoom", .jnum 3)])]) }
    [("0", .jobj [("positionX", .jnum 10), ("positionY", .jnum 20),
      ("zoom", .jnum 100)]),
     ("x", .jobj [("positionX", .jstr "oops")]),
     ("7", .jobj [("positionX", .jnum 1), ("positionY", .jnum 2),
      ("zoom", .jnum 3)])]
    ["aaa0"] rfl (by decide) (by decide) ?h0 (by decide)
  case h0 =>
    intro kv hkv hobj i hpi
    rcases List.mem_cons.mp hkv with h | h
    · subst h
      dsimp only at hpi
      rw [show parseInt10 "0" = some 0 from by decide] at hpi
      injection hpi with h2
      omega
    rcases List.mem_cons.mp h with h | h
    · subst h
      dsimp only at hpi
      rw [show parseInt10 "x" = none from by decide] at hpi
      exact Option.noConfusion hpi
    rcases List.mem_cons.mp h with h | h
    · subst h
      dsimp only at hpi
      rw [show parseInt10 "7" = some 7 from by decide] at hpi
      injection hpi with h2
      omega
    · exact absurd h (List.not_mem_nil kv)
  exact h

theorem validPositionOf_shape (v : JVal) :
    ∃ x y z : Int, validPositionOf v
      = .jobj [("positionX", .jnum x), ("positionY", .jnum y),
          ("zoom", .jnum z)] :=
  ⟨numOrDefault (v.getField "positionX") 50,
   numOrDefault (v.getField "positionY") 50,
   numOrDefault (v.getField "zoom") 100, rfl⟩

/-- C10 (amended): in the triggered 2→3 position rewrite, every entry
of the migrated map is either a verbatim pass-through of a source
entry whose key has no parsable leading integer, or a relocated entry
whose value is the full normalization of its source entry's value —
`positionX`, `positionY` and `zoom` are each the source field when
that field is a number (`numOrDefault (some (jnum n)) d = n`) and the
default 50 / 50 / 100 otherwise (`numOrDefault o d = d` whenever `o`
is not a `jnum`); and every source entry whose value is not a truthy
object is dropped — its pair never appears in the migrated map —
regardless of its key.  (The claim's first half is false as stated —
pass-through values are written verbatim, not normalized; see the
counterexample.) -/
theorem migrateStep2to3_value_normalization
    (homeBannerMedia : List BannerMedia)
    (DEFAULT_HOME_BANNER_FILE_NAME : String) (genId : Nat → String)
    (st : Store) (fields : List (String × JVal)) (ids : List String)
    (hpos : st.homeBannerPositions = some (.jobj fields))
    (hnum : fields.any (fun kv => numericKeyTest kv.1) = true)
    (hids : (computeMigratedCustom genId st.homeBannerCustomMedia).1.map
        (fun e => e.getField "id") = ids.map (fun s => some (.jstr s)))
    (h0 : ∀ kv ∈ fields, (kv.2.truthy && kv.2.isObjectType) = true →
      ∀ i : Int, parseInt10 kv.1 = some i → 0 ≤ i)
    (hnodup : ((rewrittenPositions homeBannerMedia ids fields).map
      Prod.fst).Nodup) :
    (∃ m : List (String × JVal),
      (migrateUserSettingsStep homeBannerMedia DEFAULT_HOME_BANNER_FILE_NAME
        genId 2 3 st).2.homeBannerPositions = some (.jobj m)
      ∧ (∀ kv ∈ m, (kv ∈ fields ∧ parseInt10 kv.1 = none)
          ∨ ∃ src, src ∈ fields ∧ (∃ i : Int, parseInt10 src.1 = some i)
              ∧ kv.2 = .jobj
                [("positionX",
                    .jnum (numOrDefault (src.2.getField "positionX") 50)),
                 ("positionY",
                    .jnum (numOrDefault (src.2.getField "positionY") 50)),
                 ("zoom",
                    .jnum (numOrDefault (src.2.getField "zoom") 100))])
      ∧ (∀ kv ∈ fields, (kv.2.truthy && kv.2.isObjectType) = false →
          kv ∉ m))
    ∧ (∀ n d : Int, numOrDefault (some (.jnum n)) d = n)
    ∧ (∀ (o : Option JVal) (d : Int),
        (∀ n : Int, o ≠ some (.jnum n)) → numOrDefault o d = d) := by
  refine ⟨?_, fun n d => rfl, ?_⟩
  case refine_2 =>
    intro o d h
    cases o with
    | none => rfl
    | some v =>
      cases v with
      | jnum n => exact absurd rfl (h n)
      | jstr s => rfl
      | jbool b => rfl
      | jnull => rfl
      | jarr xs => rfl
      | jobj f => rfl
  have hloop := migratePositionsLoop_eq homeBannerMedia
    (computeMigratedCustom genId st.homeBannerCustomMedia).1 ids hids
    fields [] h0 (by simpa using hnodup)
  have hcase := migrateStep2to3_loopCase homeBannerMedia genId st
    (.jobj fields) fields hpos rfl rfl hnum
  have heq : migrateUserSettingsStep homeBannerMedia
      DEFAULT_HOME_BANNER_FILE_NAME genId 2 3 st
      = (if (migrateStep2to3 homeBannerMedia genId st).1 then
          migrateStep2to3 homeBannerMedia genId st
        else (false, (migrateStep2to3 homeBannerMedia genId st).2)) := rfl
  refine ⟨rewrittenPositions homeBannerMedia ids fields, ?_, ?_, ?_⟩
  · rw [heq, hcase, hloop]
    simp
  · intro kv hkv
    unfold rewrittenPositions at hkv
    rcases List.mem_filterMap.mp hkv with ⟨src, hsrc, hf⟩
    by_cases hobj : (src.2.truthy && src.2.isObjectType) = true
    · rw [hobj] at hf
      simp only [if_true] at hf
      cases hp : parseInt10 src.1 with
      | none =>
        rw [hp] at hf
        injection hf with hf
        subst hf
        exact Or.inl ⟨hsrc, hp⟩
      | some i =>
        rw [hp] at hf
        dsimp only at hf
        right
        by_cases hlt : i < (ids.length : Int)
        · rw [if_pos hlt] at hf
          cases hg : ids.get? i.toNat with
          | none => rw [hg] at hf; exact Option.noConfusion hf
          | some idv =>
            rw [hg] at hf
            injection hf with hf
            subst hf
            exact ⟨src, hsrc, ⟨i, hp⟩, rfl⟩
        · rw [if_neg hlt] at hf
          cases hg : homeBannerMedia.get? (i - (ids.length : Int)).toNat with
          | none => rw [hg] at hf; exact Option.noConfusion hf
          | some m =>
            rw [hg] at hf
            injection hf with hf
            subst hf
            exact ⟨src, hsrc, ⟨i, hp⟩, rfl⟩
    · rw [Bool.not_eq_true] at hobj
      rw [hobj] at hf
      exact Option.noConfusion hf
  · intro kv hkv hfalse hmem
    unfold rewrittenPositions at hmem
    rcases List.mem_filterMap.mp hmem with ⟨src, hsrc, hf⟩
    by_cases hobj : (src.2.truthy && src.2.isObjectType) = true
    · rw [hobj] at hf
      simp only [if_true] at hf
      cases hp : parseInt10 src.1 with
      | none =>
        rw [hp] at hf
        injection hf with hf
        subst hf
        rw [hobj] at hfalse
        exact Bool.noConfusion hfalse
      | some i =>
        rw [hp] at hf
        dsimp only at hf
        have hshape : ∃ x y z : Int, kv.2 = .jobj
            [("positionX", .jnum x), ("positionY", .jnum y),
              ("zoom", .jnum z)] := by
          by_cases hlt : i < (ids.length : Int)
          · rw [if_pos hlt] at hf
            cases hg : ids.get? i.toNat with
            | none => rw [hg] at hf; exact Option.noConfusion hf
            | some idv =>
              rw [hg] at hf
              injection hf with hf
              subst hf
              exact validPositionOf_shape src.2
          · rw [if_neg hlt] at hf
            cases hg : homeBannerMedia.get?
                (i - (ids.length : Int)).toNat with
            | none => rw [hg] at hf; exact Option.noConfusion hf
            | some m =>
              rw [hg] at hf
              injection hf with hf
              subst hf
              exact validPositionOf_shape src.2
        rcases hshape with ⟨x, y, z, hsh⟩
        rw [hsh] at hfalse
        exact Bool.noConfusion hfalse
    · rw [Bool.not_eq_true] at hobj
      rw [hobj] at hf
      exact Option.noConfusion hf

/-- Counterexample to C10 as stated: the pass-through entry "abc"
(whose value has a non-numeric `positionX`) is written to the migrated
map verbatim, not normalized — its `positionX` stays a string instead
of becoming 50. -/
theorem migrateStep2to3_passthrough_not_normalized_cex :
    (migrateUserSettingsStep [⟨"builtin1.jpg", "Builtin 1", .image⟩]
        "builtin1.jpg" (fun _ => "aaaabbbb") 2 3
        { homeBannerPositions := some (.jobj
            [("0", .jobj [("positionX", .jnum 10), ("positionY", .jnum 20),
              ("zoom", .jnum 100)]),
             ("abc", .jobj [("positionX",
              .jstr "oops")])]) }).2.homeBannerPositions
      = some (.jobj
          [("builtin1.jpg", .jobj [("positionX", .jnum 10),
            ("positionY", .jnum 20), ("zoom", .jnum 100)]),
           ("abc", .jobj [("positionX", .jstr "oops")])]) := by
  decide

/-- Witness for C10 (amended) on the same store as the C2 witness. -/
theorem migrateStep2to3_value_normalization_witness :
    ∃ m : List (String × JVal),
      (migrateUserSettingsStep [⟨"builtin1.jpg", "Builtin 1", .image⟩]
        "builtin1.jpg" (fun _ => "aaaabbbb") 2 3
        { homeBannerCustomMedia := some (.jarr
            [.jobj [("path", .jstr "/a.jpg"), ("id", .jstr "aaa0")]]),
          homeBannerPositions := some (.jobj
            [("0", .jobj [("positionX", .jnum 10), ("positionY", .jnum 20),
              ("zoom", .jnum 100)]),
             ("x", .jobj [("positionX", .jstr "oops")]),
             ("n", .jstr "notAnObject")]) }).2.homeBannerPositions
        = some (.jobj m)
      ∧ ("n", JVal.jstr "notAnObject") ∉ m := by
  have h := migrateStep2to3_value_normalization
    [⟨"builtin1.jpg", "Builtin 1", .image⟩] "builtin1.jpg"
    (fun _ => "aaaabbbb")
    { homeBannerCustomMedia := some (.jarr
        [.jobj [("path", .jstr "/a.jpg"), ("id", .jstr "aaa0")]]),
      homeBannerPositions := some (.jobj
        [("0", .jobj [("positionX", .jnum 10), ("positionY", .jnum 20),
          ("zoom", .jnum 100)]),
         ("x", .jobj [("positionX", .jstr "oops")]),
         ("n", .jstr "notAnObject")]) }
    [("0", .jobj [("positionX", .jnum 10), ("positionY", .jnum 20),
      ("zoom", .jnum 100)]),
     ("x", .jobj [("positionX", .jstr "oops")]),
     ("n", .jstr "notAnObject")]
    ["aaa0"] rfl (by decide) (by decide) ?h0 (by decide)
  case h0 =>
    intro kv hkv hobj i hpi
    rcases List.mem_cons.mp hkv with h | h
    · subst h
      dsimp only at hpi
      rw [show parseInt10 "0" = some 0 from by decide] at hpi
      injection hpi with h2
      omega
    rcases List.mem_cons.mp h with h | h
    · subst h
      dsimp only at hpi
      rw [show parseInt10 "x" = none from by decide] at hpi
      exact Option.noConfusion hpi
    rcases List.mem_cons.mp h with h | h
    · subst h
      exact absurd hobj (by decide)
    · exact absurd h (List.not_mem_nil kv)
  rcases h with ⟨⟨m, hm, hnorm, hdrop⟩, hkeep, hdef⟩
  exact ⟨m, hm, hdrop ("n", .jstr "notAnObject") (by decide) (by decide)⟩

/-- C3, the code evaluated at the failing input: catalog
`[custom "/a" (id "aaaa"), custom "/b" (id "bbbb"), builtin "b1.jpg"]`
(n = 3) with the selection on the second custom entry (k = 1).
Removing "/b" (j = k = 1, k > 0) should, per the claim, re-anchor the
selection to index `max(0, k-1) = 0` and write the position key
"aaaa" of the entry now at index 0; the code instead writes the
default builtin key "b1.jpg" and index 1: the snapshot
`normalizedIndex`/`allMediaItems` is taken after the filtered list has
been written, so the removed path is never found (`removeIdx = -1`),
the decrement branch cannot fire, and the stale selected id falls back
to the default builtin's index in the post-removal catalog. -/
theorem removeCustomMedia_reanchoring_failure :
    removeCustomMedia [⟨"b1.jpg", "B1", .image⟩] "b1.jpg"
        { homeBannerCustomMedia := some [⟨"/a", "aaaa"⟩, ⟨"/b", "bbbb"⟩],
          homeBannerMediaId := some "bbbb" } "/b"
      = { homeBannerCustomMedia := some [⟨"/a", "aaaa"⟩],
          homeBannerMediaId := some "b1.jpg",
          homeBannerIndex := 1 }
    ∧ normalizedIndex [⟨"b1.jpg", "B1", .image⟩] "b1.jpg"
        { homeBannerCustomMedia := some [⟨"/a", "aaaa"⟩, ⟨"/b", "bbbb"⟩],
          homeBannerMediaId := some "bbbb" } = 1 := by
  exact ⟨by decide, by decide⟩
